import Mathlib

/-!
Shallow embedding of the simple-wechat-clone chat system
(src/server.py, src/client.py, src/utils.py).

Payload strings are modelled as List Char.  Sockets, threads and
encodings are modelled by explicit state passing; whether a write to a
given recipient succeeds is an oracle parameter (writeOk), and wall
clock readings are Nat parameters threaded through the functions.
-/

set_option maxRecDepth 4000

/-- Characters treated as whitespace by Python string strip and by the
regex class of whitespace, restricted to code points this code base can
meet: ASCII whitespace, the C0 separators x1C-x1F, NEL, NBSP and the
common Unicode spaces. -/
def isPySpace (c : Char) : Bool :=
  [0x20, 0x09, 0x0A, 0x0D, 0x0B, 0x0C, 0x1C, 0x1D, 0x1E, 0x1F, 0x85, 0xA0,
    0x1680, 0x2028, 0x2029, 0x202F, 0x205F, 0x3000].contains c.toNat ||
  (0x2000 ≤ c.toNat && c.toNat ≤ 0x200A)

/-- Characters removed by the control-character regex of
utils.sanitize_input: x00-x08, x0B, x0C, x0E-x1F and x7F. -/
def isRemovedControl (c : Char) : Bool :=
  c.toNat ≤ 0x08 || c.toNat = 0x0B || c.toNat = 0x0C ||
  (0x0E ≤ c.toNat && c.toNat ≤ 0x1F) || c.toNat = 0x7F

/-- Python str.rstrip: drop trailing whitespace. -/
def pyRStrip : List Char → List Char
  | [] => []
  | c :: rest =>
    let r := pyRStrip rest
    if r.isEmpty && isPySpace c then [] else c :: r

/-- Python str.strip: drop leading and trailing whitespace. -/
def pyStrip (l : List Char) : List Char :=
  pyRStrip (l.dropWhile isPySpace)

/-- Replacement of newline and carriage return by a space, the effect of
the two replace calls in utils.sanitize_input. -/
def replNL (c : Char) : Char :=
  if c = '\n' || c = '\r' then ' ' else c

theorem dropWhile_length_le {α : Type} (p : α → Bool) :
    ∀ l : List α, (l.dropWhile p).length ≤ l.length := by
  intro l
  induction l with
  | nil => simp
  | cons c rest ih =>
    by_cases h : p c
    · rw [List.dropWhile_cons_of_pos h]
      exact Nat.le_succ_of_le ih
    · rw [List.dropWhile_cons_of_neg (by simpa using h)]

/-- Substitution of every maximal whitespace run by one space, the
effect of the regex substitution in utils.sanitize_input. -/
def collapseSpaces : List Char → List Char
  | [] => []
  | c :: rest =>
    if isPySpace c then ' ' :: collapseSpaces (rest.dropWhile isPySpace)
    else c :: collapseSpaces rest
termination_by l => l.length
decreasing_by
  · exact Nat.lt_succ_of_le (dropWhile_length_le isPySpace rest)
  · simp

/-- Embeds utils.sanitize_input.  The maximal length argument uses zero
for the Python value None; both are falsy in the truncation guard. -/
def sanitize_input (text : List Char) (max_length : Nat) (allow_newlines : Bool) : List Char :=
  let t1 := pyStrip text
  let t2 := if allow_newlines then t1 else t1.map replNL
  let t3 := t2.filter (fun c => !isRemovedControl c)
  let t4 := collapseSpaces t3
  if max_length != 0 && max_length < t4.length then pyRStrip (t4.take max_length) else t4

/-- Maximal chat body length, ServerConfig.MAX_MESSAGE_SIZE and
ClientConfig.MAX_MESSAGE_SIZE and UtilsConfig.MAX_MESSAGE_LENGTH. -/
def MAX_MESSAGE_SIZE : Nat := 500

/-- Maximal nickname length, UtilsConfig.MAX_NICKNAME_LENGTH. -/
def MAX_NICKNAME_LENGTH : Nat := 20

/-- Maximal number of registered clients, ServerConfig.MAX_CLIENTS. -/
def MAX_CLIENTS : Nat := 5

/-- Embeds utils.format_message.  The rendered second-resolution time
string is passed in as timeStr. -/
def format_message (timeStr sender content : List Char) : List Char :=
  '[' :: (timeStr ++ "] ".toList ++ sanitize_input sender MAX_NICKNAME_LENGTH false
    ++ ": ".toList ++ sanitize_input content MAX_MESSAGE_SIZE false)

/-- Codepoint ranges on which Python str.isalnum is true: the Unicode
14.0 alphabetic characters together with the decimal, digit and
numeric categories, as CPython 3.11 classifies them.  Listed as closed
ranges of codepoints. -/
def pyAlnumRanges : List (Nat × Nat) := [
    (0x30, 0x39), (0x41, 0x5A), (0x61, 0x7A), (0xAA, 0xAA), (0xB2, 0xB3),
    (0xB5, 0xB5), (0xB9, 0xBA), (0xBC, 0xBE), (0xC0, 0xD6), (0xD8, 0xF6),
    (0xF8, 0x2C1), (0x2C6, 0x2D1), (0x2E0, 0x2E4), (0x2EC, 0x2EC), (0x2EE, 0x2EE),
    (0x370, 0x374), (0x376, 0x377), (0x37A, 0x37D), (0x37F, 0x37F), (0x386, 0x386),
    (0x388, 0x38A), (0x38C, 0x38C), (0x38E, 0x3A1), (0x3A3, 0x3F5), (0x3F7, 0x481),
    (0x48A, 0x52F), (0x531, 0x556), (0x559, 0x559), (0x560, 0x588), (0x5D0, 0x5EA),
    (0x5EF, 0x5F2), (0x620, 0x64A), (0x660, 0x669), (0x66E, 0x66F), (0x671, 0x6D3),
    (0x6D5, 0x6D5), (0x6E5, 0x6E6), (0x6EE, 0x6FC), (0x6FF, 0x6FF), (0x710, 0x710),
    (0x712, 0x72F), (0x74D, 0x7A5), (0x7B1, 0x7B1), (0x7C0, 0x7EA), (0x7F4, 0x7F5),
    (0x7FA, 0x7FA), (0x800, 0x815), (0x81A, 0x81A), (0x824, 0x824), (0x828, 0x828),
    (0x840, 0x858), (0x860, 0x86A), (0x870, 0x887), (0x889, 0x88E), (0x8A0, 0x8C9),
    (0x904, 0x939), (0x93D, 0x93D), (0x950, 0x950), (0x958, 0x961), (0x966, 0x96F),
    (0x971, 0x980), (0x985, 0x98C), (0x98F, 0x990), (0x993, 0x9A8), (0x9AA, 0x9B0),
    (0x9B2, 0x9B2), (0x9B6, 0x9B9), (0x9BD, 0x9BD), (0x9CE, 0x9CE), (0x9DC, 0x9DD),
    (0x9DF, 0x9E1), (0x9E6, 0x9F1), (0x9F4, 0x9F9), (0x9FC, 0x9FC), (0xA05, 0xA0A),
    (0xA0F, 0xA10), (0xA13, 0xA28), (0xA2A, 0xA30), (0xA32, 0xA33), (0xA35, 0xA36),
    (0xA38, 0xA39), (0xA59, 0xA5C), (0xA5E, 0xA5E), (0xA66, 0xA6F), (0xA72, 0xA74),
    (0xA85, 0xA8D), (0xA8F, 0xA91), (0xA93, 0xAA8), (0xAAA, 0xAB0), (0xAB2, 0xAB3),
    (0xAB5, 0xAB9), (0xABD, 0xABD), (0xAD0, 0xAD0), (0xAE0, 0xAE1), (0xAE6, 0xAEF),
    (0xAF9, 0xAF9), (0xB05, 0xB0C), (0xB0F, 0xB10), (0xB13, 0xB28), (0xB2A, 0xB30),
    (0xB32, 0xB33), (0xB35, 0xB39), (0xB3D, 0xB3D), (0xB5C, 0xB5D), (0xB5F, 0xB61),
    (0xB66, 0xB6F), (0xB71, 0xB77), (0xB83, 0xB83), (0xB85, 0xB8A), (0xB8E, 0xB90),
    (0xB92, 0xB95), (0xB99, 0xB9A), (0xB9C, 0xB9C), (0xB9E, 0xB9F), (0xBA3, 0xBA4),
    (0xBA8, 0xBAA), (0xBAE, 0xBB9), (0xBD0, 0xBD0), (0xBE6, 0xBF2), (0xC05, 0xC0C),
    (0xC0E, 0xC10), (0xC12, 0xC28), (0xC2A, 0xC39), (0xC3D, 0xC3D), (0xC58, 0xC5A),
    (0xC5D, 0xC5D), (0xC60, 0xC61), (0xC66, 0xC6F), (0xC78, 0xC7E), (0xC80, 0xC80),
    (0xC85, 0xC8C), (0xC8E, 0xC90), (0xC92, 0xCA8), (0xCAA, 0xCB3), (0xCB5, 0xCB9),
    (0xCBD, 0xCBD), (0xCDD, 0xCDE), (0xCE0, 0xCE1), (0xCE6, 0xCEF), (0xCF1, 0xCF2),
    (0xD04, 0xD0C), (0xD0E, 0xD10), (0xD12, 0xD3A), (0xD3D, 0xD3D), (0xD4E, 0xD4E),
    (0xD54, 0xD56), (0xD58, 0xD61), (0xD66, 0xD78), (0xD7A, 0xD7F), (0xD85, 0xD96),
    (0xD9A, 0xDB1), (0xDB3, 0xDBB), (0xDBD, 0xDBD), (0xDC0, 0xDC6), (0xDE6, 0xDEF),
    (0xE01, 0xE30), (0xE32, 0xE33), (0xE40, 0xE46), (0xE50, 0xE59), (0xE81, 0xE82),
    (0xE84, 0xE84), (0xE86, 0xE8A), (0xE8C, 0xEA3), (0xEA5, 0xEA5), (0xEA7, 0xEB0),
    (0xEB2, 0xEB3), (0xEBD, 0xEBD), (0xEC0, 0xEC4), (0xEC6, 0xEC6), (0xED0, 0xED9),
    (0xEDC, 0xEDF), (0xF00, 0xF00), (0xF20, 0xF33), (0xF40, 0xF47), (0xF49, 0xF6C),
    (0xF88, 0xF8C), (0x1000, 0x102A), (0x103F, 0x1049), (0x1050, 0x1055), (0x105A, 0x105D),
    (0x1061, 0x1061), (0x1065, 0x1066), (0x106E, 0x1070), (0x1075, 0x1081), (0x108E, 0x108E),
    (0x1090, 0x1099), (0x10A0, 0x10C5), (0x10C7, 0x10C7), (0x10CD, 0x10CD), (0x10D0, 0x10FA),
    (0x10FC, 0x1248), (0x124A, 0x124D), (0x1250, 0x1256), (0x1258, 0x1258), (0x125A, 0x125D),
    (0x1260, 0x1288), (0x128A, 0x128D), (0x1290, 0x12B0), (0x12B2, 0x12B5), (0x12B8, 0x12BE),
    (0x12C0, 0x12C0), (0x12C2, 0x12C5), (0x12C8, 0x12D6), (0x12D8, 0x1310), (0x1312, 0x1315),
    (0x1318, 0x135A), (0x1369, 0x137C), (0x1380, 0x138F), (0x13A0, 0x13F5), (0x13F8, 0x13FD),
    (0x1401, 0x166C), (0x166F, 0x167F), (0x1681, 0x169A), (0x16A0, 0x16EA), (0x16EE, 0x16F8),
    (0x1700, 0x1711), (0x171F, 0x1731), (0x1740, 0x1751), (0x1760, 0x176C), (0x176E, 0x1770),
    (0x1780, 0x17B3), (0x17D7, 0x17D7), (0x17DC, 0x17DC), (0x17E0, 0x17E9), (0x17F0, 0x17F9),
    (0x1810, 0x1819), (0x1820, 0x1878), (0x1880, 0x1884), (0x1887, 0x18A8), (0x18AA, 0x18AA),
    (0x18B0, 0x18F5), (0x1900, 0x191E), (0x1946, 0x196D), (0x1970, 0x1974), (0x1980, 0x19AB),
    (0x19B0, 0x19C9), (0x19D0, 0x19DA), (0x1A00, 0x1A16), (0x1A20, 0x1A54), (0x1A80, 0x1A89),
    (0x1A90, 0x1A99), (0x1AA7, 0x1AA7), (0x1B05, 0x1B33), (0x1B45, 0x1B4C), (0x1B50, 0x1B59),
    (0x1B83, 0x1BA0), (0x1BAE, 0x1BE5), (0x1C00, 0x1C23), (0x1C40, 0x1C49), (0x1C4D, 0x1C7D),
    (0x1C80, 0x1C88), (0x1C90, 0x1CBA), (0x1CBD, 0x1CBF), (0x1CE9, 0x1CEC), (0x1CEE, 0x1CF3),
    (0x1CF5, 0x1CF6), (0x1CFA, 0x1CFA), (0x1D00, 0x1DBF), (0x1E00, 0x1F15), (0x1F18, 0x1F1D),
    (0x1F20, 0x1F45), (0x1F48, 0x1F4D), (0x1F50, 0x1F57), (0x1F59, 0x1F59), (0x1F5B, 0x1F5B),
    (0x1F5D, 0x1F5D), (0x1F5F, 0x1F7D), (0x1F80, 0x1FB4), (0x1FB6, 0x1FBC), (0x1FBE, 0x1FBE),
    (0x1FC2, 0x1FC4), (0x1FC6, 0x1FCC), (0x1FD0, 0x1FD3), (0x1FD6, 0x1FDB), (0x1FE0, 0x1FEC),
    (0x1FF2, 0x1FF4), (0x1FF6, 0x1FFC), (0x2070, 0x2071), (0x2074, 0x2079), (0x207F, 0x2089),
    (0x2090, 0x209C), (0x2102, 0x2102), (0x2107, 0x2107), (0x210A, 0x2113), (0x2115, 0x2115),
    (0x2119, 0x211D), (0x2124, 0x2124), (0x2126, 0x2126), (0x2128, 0x2128), (0x212A, 0x212D),
    (0x212F, 0x2139), (0x213C, 0x213F), (0x2145, 0x2149), (0x214E, 0x214E), (0x2150, 0x2189),
    (0x2460, 0x249B), (0x24EA, 0x24FF), (0x2776, 0x2793), (0x2C00, 0x2CE4), (0x2CEB, 0x2CEE),
    (0x2CF2, 0x2CF3), (0x2CFD, 0x2CFD), (0x2D00, 0x2D25), (0x2D27, 0x2D27), (0x2D2D, 0x2D2D),
    (0x2D30, 0x2D67), (0x2D6F, 0x2D6F), (0x2D80, 0x2D96), (0x2DA0, 0x2DA6), (0x2DA8, 0x2DAE),
    (0x2DB0, 0x2DB6), (0x2DB8, 0x2DBE), (0x2DC0, 0x2DC6), (0x2DC8, 0x2DCE), (0x2DD0, 0x2DD6),
    (0x2DD8, 0x2DDE), (0x2E2F, 0x2E2F), (0x3005, 0x3007), (0x3021, 0x3029), (0x3031, 0x3035),
    (0x3038, 0x303C), (0x3041, 0x3096), (0x309D, 0x309F), (0x30A1, 0x30FA), (0x30FC, 0x30FF),
    (0x3105, 0x312F), (0x3131, 0x318E), (0x3192, 0x3195), (0x31A0, 0x31BF), (0x31F0, 0x31FF),
    (0x3220, 0x3229), (0x3248, 0x324F), (0x3251, 0x325F), (0x3280, 0x3289), (0x32B1, 0x32BF),
    (0x3400, 0x4DBF), (0x4E00, 0xA48C), (0xA4D0, 0xA4FD), (0xA500, 0xA60C), (0xA610, 0xA62B),
    (0xA640, 0xA66E), (0xA67F, 0xA69D), (0xA6A0, 0xA6EF), (0xA717, 0xA71F), (0xA722, 0xA788),
    (0xA78B, 0xA7CA), (0xA7D0, 0xA7D1), (0xA7D3, 0xA7D3), (0xA7D5, 0xA7D9), (0xA7F2, 0xA801),
    (0xA803, 0xA805), (0xA807, 0xA80A), (0xA80C, 0xA822), (0xA830, 0xA835), (0xA840, 0xA873),
    (0xA882, 0xA8B3), (0xA8D0, 0xA8D9), (0xA8F2, 0xA8F7), (0xA8FB, 0xA8FB), (0xA8FD, 0xA8FE),
    (0xA900, 0xA925), (0xA930, 0xA946), (0xA960, 0xA97C), (0xA984, 0xA9B2), (0xA9CF, 0xA9D9),
    (0xA9E0, 0xA9E4), (0xA9E6, 0xA9FE), (0xAA00, 0xAA28), (0xAA40, 0xAA42), (0xAA44, 0xAA4B),
    (0xAA50, 0xAA59), (0xAA60, 0xAA76), (0xAA7A, 0xAA7A), (0xAA7E, 0xAAAF), (0xAAB1, 0xAAB1),
    (0xAAB5, 0xAAB6), (0xAAB9, 0xAABD), (0xAAC0, 0xAAC0), (0xAAC2, 0xAAC2), (0xAADB, 0xAADD),
    (0xAAE0, 0xAAEA), (0xAAF2, 0xAAF4), (0xAB01, 0xAB06), (0xAB09, 0xAB0E), (0xAB11, 0xAB16),
    (0xAB20, 0xAB26), (0xAB28, 0xAB2E), (0xAB30, 0xAB5A), (0xAB5C, 0xAB69), (0xAB70, 0xABE2),
    (0xABF0, 0xABF9), (0xAC00, 0xD7A3), (0xD7B0, 0xD7C6), (0xD7CB, 0xD7FB), (0xF900, 0xFA6D),
    (0xFA70, 0xFAD9), (0xFB00, 0xFB06), (0xFB13, 0xFB17), (0xFB1D, 0xFB1D), (0xFB1F, 0xFB28),
    (0xFB2A, 0xFB36), (0xFB38, 0xFB3C), (0xFB3E, 0xFB3E), (0xFB40, 0xFB41), (0xFB43, 0xFB44),
    (0xFB46, 0xFBB1), (0xFBD3, 0xFD3D), (0xFD50, 0xFD8F), (0xFD92, 0xFDC7), (0xFDF0, 0xFDFB),
    (0xFE70, 0xFE74), (0xFE76, 0xFEFC), (0xFF10, 0xFF19), (0xFF21, 0xFF3A), (0xFF41, 0xFF5A),
    (0xFF66, 0xFFBE), (0xFFC2, 0xFFC7), (0xFFCA, 0xFFCF), (0xFFD2, 0xFFD7), (0xFFDA, 0xFFDC),
    (0x10000, 0x1000B), (0x1000D, 0x10026), (0x10028, 0x1003A), (0x1003C, 0x1003D), (0x1003F, 0x1004D),
    (0x10050, 0x1005D), (0x10080, 0x100FA), (0x10107, 0x10133), (0x10140, 0x10178), (0x1018A, 0x1018B),
    (0x10280, 0x1029C), (0x102A0, 0x102D0), (0x102E1, 0x102FB), (0x10300, 0x10323), (0x1032D, 0x1034A),
    (0x10350, 0x10375), (0x10380, 0x1039D), (0x103A0, 0x103C3), (0x103C8, 0x103CF), (0x103D1, 0x103D5),
    (0x10400, 0x1049D), (0x104A0, 0x104A9), (0x104B0, 0x104D3), (0x104D8, 0x104FB), (0x10500, 0x10527),
    (0x10530, 0x10563), (0x10570, 0x1057A), (0x1057C, 0x1058A), (0x1058C, 0x10592), (0x10594, 0x10595),
    (0x10597, 0x105A1), (0x105A3, 0x105B1), (0x105B3, 0x105B9), (0x105BB, 0x105BC), (0x10600, 0x10736),
    (0x10740, 0x10755), (0x10760, 0x10767), (0x10780, 0x10785), (0x10787, 0x107B0), (0x107B2, 0x107BA),
    (0x10800, 0x10805), (0x10808, 0x10808), (0x1080A, 0x10835), (0x10837, 0x10838), (0x1083C, 0x1083C),
    (0x1083F, 0x10855), (0x10858, 0x10876), (0x10879, 0x1089E), (0x108A7, 0x108AF), (0x108E0, 0x108F2),
    (0x108F4, 0x108F5), (0x108FB, 0x1091B), (0x10920, 0x10939), (0x10980, 0x109B7), (0x109BC, 0x109CF),
    (0x109D2, 0x10A00), (0x10A10, 0x10A13), (0x10A15, 0x10A17), (0x10A19, 0x10A35), (0x10A40, 0x10A48),
    (0x10A60, 0x10A7E), (0x10A80, 0x10A9F), (0x10AC0, 0x10AC7), (0x10AC9, 0x10AE4), (0x10AEB, 0x10AEF),
    (0x10B00, 0x10B35), (0x10B40, 0x10B55), (0x10B58, 0x10B72), (0x10B78, 0x10B91), (0x10BA9, 0x10BAF),
    (0x10C00, 0x10C48), (0x10C80, 0x10CB2), (0x10CC0, 0x10CF2), (0x10CFA, 0x10D23), (0x10D30, 0x10D39),
    (0x10E60, 0x10E7E), (0x10E80, 0x10EA9), (0x10EB0, 0x10EB1), (0x10F00, 0x10F27), (0x10F30, 0x10F45),
    (0x10F51, 0x10F54), (0x10F70, 0x10F81), (0x10FB0, 0x10FCB), (0x10FE0, 0x10FF6), (0x11003, 0x11037),
    (0x11052, 0x1106F), (0x11071, 0x11072), (0x11075, 0x11075), (0x11083, 0x110AF), (0x110D0, 0x110E8),
    (0x110F0, 0x110F9), (0x11103, 0x11126), (0x11136, 0x1113F), (0x11144, 0x11144), (0x11147, 0x11147),
    (0x11150, 0x11172), (0x11176, 0x11176), (0x11183, 0x111B2), (0x111C1, 0x111C4), (0x111D0, 0x111DA),
    (0x111DC, 0x111DC), (0x111E1, 0x111F4), (0x11200, 0x11211), (0x11213, 0x1122B), (0x11280, 0x11286),
    (0x11288, 0x11288), (0x1128A, 0x1128D), (0x1128F, 0x1129D), (0x1129F, 0x112A8), (0x112B0, 0x112DE),
    (0x112F0, 0x112F9), (0x11305, 0x1130C), (0x1130F, 0x11310), (0x11313, 0x11328), (0x1132A, 0x11330),
    (0x11332, 0x11333), (0x11335, 0x11339), (0x1133D, 0x1133D), (0x11350, 0x11350), (0x1135D, 0x11361),
    (0x11400, 0x11434), (0x11447, 0x1144A), (0x11450, 0x11459), (0x1145F, 0x11461), (0x11480, 0x114AF),
    (0x114C4, 0x114C5), (0x114C7, 0x114C7), (0x114D0, 0x114D9), (0x11580, 0x115AE), (0x115D8, 0x115DB),
    (0x11600, 0x1162F), (0x11644, 0x11644), (0x11650, 0x11659), (0x11680, 0x116AA), (0x116B8, 0x116B8),
    (0x116C0, 0x116C9), (0x11700, 0x1171A), (0x11730, 0x1173B), (0x11740, 0x11746), (0x11800, 0x1182B),
    (0x118A0, 0x118F2), (0x118FF, 0x11906), (0x11909, 0x11909), (0x1190C, 0x11913), (0x11915, 0x11916),
    (0x11918, 0x1192F), (0x1193F, 0x1193F), (0x11941, 0x11941), (0x11950, 0x11959), (0x119A0, 0x119A7),
    (0x119AA, 0x119D0), (0x119E1, 0x119E1), (0x119E3, 0x119E3), (0x11A00, 0x11A00), (0x11A0B, 0x11A32),
    (0x11A3A, 0x11A3A), (0x11A50, 0x11A50), (0x11A5C, 0x11A89), (0x11A9D, 0x11A9D), (0x11AB0, 0x11AF8),
    (0x11C00, 0x11C08), (0x11C0A, 0x11C2E), (0x11C40, 0x11C40), (0x11C50, 0x11C6C), (0x11C72, 0x11C8F),
    (0x11D00, 0x11D06), (0x11D08, 0x11D09), (0x11D0B, 0x11D30), (0x11D46, 0x11D46), (0x11D50, 0x11D59),
    (0x11D60, 0x11D65), (0x11D67, 0x11D68), (0x11D6A, 0x11D89), (0x11D98, 0x11D98), (0x11DA0, 0x11DA9),
    (0x11EE0, 0x11EF2), (0x11FB0, 0x11FB0), (0x11FC0, 0x11FD4), (0x12000, 0x12399), (0x12400, 0x1246E),
    (0x12480, 0x12543), (0x12F90, 0x12FF0), (0x13000, 0x1342E), (0x14400, 0x14646), (0x16800, 0x16A38),
    (0x16A40, 0x16A5E), (0x16A60, 0x16A69), (0x16A70, 0x16ABE), (0x16AC0, 0x16AC9), (0x16AD0, 0x16AED),
    (0x16B00, 0x16B2F), (0x16B40, 0x16B43), (0x16B50, 0x16B59), (0x16B5B, 0x16B61), (0x16B63, 0x16B77),
    (0x16B7D, 0x16B8F), (0x16E40, 0x16E96), (0x16F00, 0x16F4A), (0x16F50, 0x16F50), (0x16F93, 0x16F9F),
    (0x16FE0, 0x16FE1), (0x16FE3, 0x16FE3), (0x17000, 0x187F7), (0x18800, 0x18CD5), (0x18D00, 0x18D08),
    (0x1AFF0, 0x1AFF3), (0x1AFF5, 0x1AFFB), (0x1AFFD, 0x1AFFE), (0x1B000, 0x1B122), (0x1B150, 0x1B152),
    (0x1B164, 0x1B167), (0x1B170, 0x1B2FB), (0x1BC00, 0x1BC6A), (0x1BC70, 0x1BC7C), (0x1BC80, 0x1BC88),
    (0x1BC90, 0x1BC99), (0x1D2E0, 0x1D2F3), (0x1D360, 0x1D378), (0x1D400, 0x1D454), (0x1D456, 0x1D49C),
    (0x1D49E, 0x1D49F), (0x1D4A2, 0x1D4A2), (0x1D4A5, 0x1D4A6), (0x1D4A9, 0x1D4AC), (0x1D4AE, 0x1D4B9),
    (0x1D4BB, 0x1D4BB), (0x1D4BD, 0x1D4C3), (0x1D4C5, 0x1D505), (0x1D507, 0x1D50A), (0x1D50D, 0x1D514),
    (0x1D516, 0x1D51C), (0x1D51E, 0x1D539), (0x1D53B, 0x1D53E), (0x1D540, 0x1D544), (0x1D546, 0x1D546),
    (0x1D54A, 0x1D550), (0x1D552, 0x1D6A5), (0x1D6A8, 0x1D6C0), (0x1D6C2, 0x1D6DA), (0x1D6DC, 0x1D6FA),
    (0x1D6FC, 0x1D714), (0x1D716, 0x1D734), (0x1D736, 0x1D74E), (0x1D750, 0x1D76E), (0x1D770, 0x1D788),
    (0x1D78A, 0x1D7A8), (0x1D7AA, 0x1D7C2), (0x1D7C4, 0x1D7CB), (0x1D7CE, 0x1D7FF), (0x1DF00, 0x1DF1E),
    (0x1E100, 0x1E12C), (0x1E137, 0x1E13D), (0x1E140, 0x1E149), (0x1E14E, 0x1E14E), (0x1E290, 0x1E2AD),
    (0x1E2C0, 0x1E2EB), (0x1E2F0, 0x1E2F9), (0x1E7E0, 0x1E7E6), (0x1E7E8, 0x1E7EB), (0x1E7ED, 0x1E7EE),
    (0x1E7F0, 0x1E7FE), (0x1E800, 0x1E8C4), (0x1E8C7, 0x1E8CF), (0x1E900, 0x1E943), (0x1E94B, 0x1E94B),
    (0x1E950, 0x1E959), (0x1EC71, 0x1ECAB), (0x1ECAD, 0x1ECAF), (0x1ECB1, 0x1ECB4), (0x1ED01, 0x1ED2D),
    (0x1ED2F, 0x1ED3D), (0x1EE00, 0x1EE03), (0x1EE05, 0x1EE1F), (0x1EE21, 0x1EE22), (0x1EE24, 0x1EE24),
    (0x1EE27, 0x1EE27), (0x1EE29, 0x1EE32), (0x1EE34, 0x1EE37), (0x1EE39, 0x1EE39), (0x1EE3B, 0x1EE3B),
    (0x1EE42, 0x1EE42), (0x1EE47, 0x1EE47), (0x1EE49, 0x1EE49), (0x1EE4B, 0x1EE4B), (0x1EE4D, 0x1EE4F),
    (0x1EE51, 0x1EE52), (0x1EE54, 0x1EE54), (0x1EE57, 0x1EE57), (0x1EE59, 0x1EE59), (0x1EE5B, 0x1EE5B),
    (0x1EE5D, 0x1EE5D), (0x1EE5F, 0x1EE5F), (0x1EE61, 0x1EE62), (0x1EE64, 0x1EE64), (0x1EE67, 0x1EE6A),
    (0x1EE6C, 0x1EE72), (0x1EE74, 0x1EE77), (0x1EE79, 0x1EE7C), (0x1EE7E, 0x1EE7E), (0x1EE80, 0x1EE89),
    (0x1EE8B, 0x1EE9B), (0x1EEA1, 0x1EEA3), (0x1EEA5, 0x1EEA9), (0x1EEAB, 0x1EEBB), (0x1F100, 0x1F10C),
    (0x1FBF0, 0x1FBF9), (0x20000, 0x2A6DF), (0x2A700, 0x2B738), (0x2B740, 0x2B81D), (0x2B820, 0x2CEA1),
    (0x2CEB0, 0x2EBE0), (0x2F800, 0x2FA1D), (0x30000, 0x3134A)]

/-- Python str.isalnum on one character: membership in the exact
CPython codepoint ranges above.  The underscore is not alphanumeric
for Python. -/
def pyIsAlnum (c : Char) : Bool :=
  pyAlnumRanges.any (fun r => r.1 ≤ c.toNat && c.toNat ≤ r.2)

/-- Python str.lower on one character, for the ASCII range the client
directives live in. -/
def pyLowerChar (c : Char) : Char :=
  if 'A' ≤ c && c ≤ 'Z' then Char.ofNat (c.toNat + 32) else c

/-- Python str.lower. -/
def pyLower (l : List Char) : List Char := l.map pyLowerChar

/-- Embeds server.ClientConnection: remote identity, negotiated display
name, timestamps and the active flag.  The socket itself is modelled by
the write oracle of the functions below. -/
structure ClientConnection where
  ip : String
  port : Nat
  nickname : List Char
  connected_time : Nat
  last_activity : Nat
  is_active : Bool
  deriving DecidableEq

/-- Embeds ClientConnection.send_message: on a successful write the
activity timestamp is refreshed and true is returned; on a write
failure the connection is marked inactive and false is returned. -/
def ClientConnection.send_message (c : ClientConnection) (writeOk : Bool) (now : Nat) :
    ClientConnection × Bool :=
  if writeOk then ({ c with last_activity := now }, true)
  else ({ c with is_active := false }, false)

/-- The registry self.clients: a mapping from the client id string
ip:port to the connection, modelled as an association list in
insertion order (Python dicts preserve insertion order). -/
abbrev Registry := List (String × ClientConnection)

/-- Embeds server.ChatServer state that the claims touch. -/
structure ChatServer where
  clients : Registry
  room_password : List Char
  is_running : Bool
  deriving DecidableEq

/-- The registry key used by the server, ip:port. -/
def clientIdOf (ip : String) (port : Nat) : String :=
  ip ++ ":" ++ toString port

/-- Embeds ChatServer.remove_client: delete the key if present, a no-op
otherwise (dict keys are unique, so deletion is a filter). -/
def remove_client (clients : Registry) (client_id : String) : Registry :=
  clients.filter (fun p => p.1 != client_id)

/-- Python dict assignment self.clients[k] = v: replace the entry in
place when the key exists, append otherwise. -/
def dict_insert (clients : Registry) (k : String) (v : ClientConnection) : Registry :=
  if clients.any (fun p => p.1 == k) then
    clients.map (fun p => if p.1 = k then (k, v) else p)
  else clients ++ [(k, v)]

/-- The fan-out loop of ChatServer.broadcast_message over the registry:
skip the excluded id, schedule inactive entries for removal, otherwise
attempt the write, collecting the updated entries, the removal list and
the successful deliveries in order. -/
def broadcast_pass (writeOk : String → Bool) (now : Nat) (fm : List Char)
    (exclude_client : String) :
    Registry → Registry × List String × List (String × List Char)
  | [] => ([], [], [])
  | (cid, c) :: rest =>
    if cid = exclude_client then
      let r := broadcast_pass writeOk now fm exclude_client rest
      ((cid, c) :: r.1, r.2.1, r.2.2)
    else if !c.is_active then
      let r := broadcast_pass writeOk now fm exclude_client rest
      ((cid, c) :: r.1, cid :: r.2.1, r.2.2)
    else
      let s := c.send_message (writeOk cid) now
      let r := broadcast_pass writeOk now fm exclude_client rest
      if s.2 then ((cid, s.1) :: r.1, r.2.1, (cid, fm) :: r.2.2)
      else ((cid, s.1) :: r.1, cid :: r.2.1, r.2.2)

/-- Embeds ChatServer.broadcast_message: return unchanged on an empty
registry, otherwise format the envelope once, fan out to every entry
whose id is not the excluded one, and afterwards remove every entry
scheduled for removal during the pass.  Returns the new server state
and the list of successful deliveries (recipient id, delivered bytes). -/
def broadcast_message (writeOk : String → Bool) (now : Nat) (timeStr : List Char)
    (s : ChatServer) (sender message : List Char) (exclude_client : String) :
    ChatServer × List (String × List Char) :=
  if s.clients.isEmpty then (s, [])
  else
    let fm := format_message timeStr sender message
    let r := broadcast_pass writeOk now fm exclude_client s.clients
    ({ s with clients := r.2.1.foldl (fun cs cid => remove_client cs cid) r.1 }, r.2.2)

/-- Markers and socket actions visible on the wire during connection
acceptance. -/
inductive WireMsg
  | passwordRequest
  | authSuccess
  | authFailed
  | serverFull
  | nicknameRequest
  | socketClosed
  deriving DecidableEq

/-- Embeds ChatServer.authenticate_client: emit the password request,
decode and strip the received credential, compare with the room
password, and answer with the success or failure marker. -/
def authenticate_client (room_password received : List Char) : Bool × List WireMsg :=
  let client_password := pyStrip received
  if client_password = room_password then (true, [.passwordRequest, .authSuccess])
  else (false, [.passwordRequest, .authFailed])

/-- The generated placeholder name of ChatServer.get_client_nickname,
User_ followed by the epoch seconds modulo 10000. -/
def defaultNickname (now : Nat) : List Char :=
  "User_".toList ++ (toString (now % 10000)).toList

/-- Embeds ChatServer.get_client_nickname: strip the received nickname
and accept it when it is nonempty, at most 20 characters and
alphanumeric; otherwise substitute the generated placeholder. -/
def get_client_nickname (received : List Char) (now : Nat) : List Char :=
  let nickname := pyStrip received
  if nickname ≠ [] ∧ nickname.length ≤ 20 ∧ nickname.all pyIsAlnum = true then nickname
  else defaultNickname now

/-- One iteration of ChatServer.accept_connections for a connection
that answers both prompts: reject with the server-full marker before
any authentication when the registry is at capacity; otherwise run the
handshake, and on success create the connection and insert it into the
registry. -/
def accept_one (s : ChatServer) (ip : String) (port : Nat)
    (rawPassword rawNickname : List Char) (now : Nat) : ChatServer × List WireMsg :=
  if MAX_CLIENTS ≤ s.clients.length then
    (s, [.serverFull, .socketClosed])
  else
    let a := authenticate_client s.room_password rawPassword
    if a.1 then
      let nickname := get_client_nickname rawNickname now
      let conn : ClientConnection :=
        { ip := ip, port := port, nickname := nickname,
          connected_time := now, last_activity := now, is_active := true }
      ({ s with clients := dict_insert s.clients (clientIdOf ip port) conn },
       a.2 ++ [.nicknameRequest])
    else
      (s, a.2 ++ [.socketClosed])

/-- The reserved system sender label. -/
def sysLabel : List Char := "系统".toList

/-- Farewell body sent to a quitting client. -/
def byeText : List Char := "再见! 👋".toList

/-- The static help listing of ChatServer.handle_command. -/
def helpText : List Char :=
  "\n📋 聊天室命令帮助:\n/help - 显示此帮助信息\n/quit - 退出聊天室\n/users - 查看在线用户列表\n/time - 显示当前时间\n".toList

/-- Python str.join with a separator. -/
def joinWith (sep : List Char) : List (List Char) → List Char
  | [] => []
  | [x] => x
  | x :: xs => x ++ sep ++ joinWith sep xs

/-- Body of the online-users reply. -/
def usersText (online : List (List Char)) : List Char :=
  "👥 在线用户 (".toList ++ (toString online.length).toList ++ "): ".toList
    ++ joinWith ", ".toList online

/-- Body of the current-time reply; the rendered full timestamp is a
parameter. -/
def timeText (fullTimeStr : List Char) : List Char :=
  "🕒 当前时间: ".toList ++ fullTimeStr

/-- Body of the unknown-command reply. -/
def unknownText (command : List Char) : List Char :=
  "❓ 未知命令: ".toList ++ command ++ "，输入 /help 查看帮助".toList

/-- Embeds ChatServer.handle_command: dispatch on the exact command
line and send exactly one reply to the issuer; only the quit command
additionally clears the active flag.  Returns the updated issuer
connection and the reply bodies handed to its send_message. -/
def handle_command (writeOk : Bool) (now : Nat) (timeStr fullTimeStr : List Char)
    (clients : Registry) (conn : ClientConnection) (command : List Char) :
    ClientConnection × List (List Char) :=
  if command = "/quit".toList then
    let s := conn.send_message writeOk now
    ({ s.1 with is_active := false }, [format_message timeStr sysLabel byeText])
  else if command = "/help".toList then
    let s := conn.send_message writeOk now
    (s.1, [helpText])
  else if command = "/users".toList then
    let online := clients.filterMap (fun p => if p.2.is_active then some p.2.nickname else none)
    let s := conn.send_message writeOk now
    (s.1, [format_message timeStr sysLabel (usersText online)])
  else if command = "/time".toList then
    let s := conn.send_message writeOk now
    (s.1, [format_message timeStr sysLabel (timeText fullTimeStr)])
  else
    let s := conn.send_message writeOk now
    (s.1, [format_message timeStr sysLabel (unknownText command)])

/-- Private notice sent to a kicked client. -/
def kickNotice : List Char := "你已被管理员踢出聊天室".toList

/-- Broadcast body announcing a kick. -/
def kickText (username : List Char) : List Char :=
  username ++ " 被管理员踢出聊天室".toList

/-- Broadcast body announcing a departure, the teardown notice of
ChatServer.handle_client. -/
def leaveText (nickname : List Char) : List Char :=
  "👋 ".toList ++ nickname ++ " 离开了聊天室".toList

/-- Broadcast body announcing a join. -/
def welcomeText (nickname : List Char) : List Char :=
  "🎉 欢迎 ".toList ++ nickname ++ " 加入聊天室!".toList

/-- Broadcast body announcing server shutdown. -/
def shutdownText : List Char := "🛑 服务器即将关闭，感谢使用！".toList

/-- Update the registry entry holding the given key; models mutation of
the shared ClientConnection object referenced by the registry. -/
def setConn (s : ChatServer) (cid : String) (c : ClientConnection) : ChatServer :=
  { s with clients := s.clients.map (fun p => if p.1 = cid then (cid, c) else p) }

/-- Embeds ChatServer.kick_user: find the first active connection whose
display name matches exactly; when found, notify it, clear its active
flag and broadcast the kick excluding it; otherwise change nothing.
Returns the server state and the log of broadcast calls made, as
(sender, body) pairs. -/
def kick_user (writeOk : String → Bool) (now : Nat) (timeStr : List Char)
    (s : ChatServer) (username : List Char) :
    ChatServer × List (List Char × List Char) :=
  match s.clients.find? (fun p => p.2.nickname == username && p.2.is_active) with
  | some pc =>
    let sent := pc.2.send_message (writeOk pc.1) now
    let c2 := { sent.1 with is_active := false }
    let s1 := setConn s pc.1 c2
    let b := broadcast_message writeOk now timeStr s1 sysLabel (kickText username) pc.1
    (b.1, [(sysLabel, kickText username)])
  | none => (s, [])

/-- Embeds ChatServer.shutdown: stop the server, broadcast the closing
notice to everyone, close every connection and clear the registry.
Returns the server state and the log of broadcast calls made. -/
def shutdown_server (writeOk : String → Bool) (now : Nat) (timeStr : List Char)
    (s : ChatServer) : ChatServer × List (List Char × List Char) :=
  let s1 : ChatServer := { s with is_running := false }
  let b := broadcast_message writeOk now timeStr s1 sysLabel shutdownText ""
  ({ b.1 with clients := [] }, [(sysLabel, shutdownText)])

/-- Events a session loop can observe at one read: received bytes
(empty bytes are peer EOF), a read timeout, a reset error, an
administrative kick of this user racing in, or the operator stopping
the server. -/
inductive SessionEvent
  | recvData (data : List Char)
  | recvTimeout
  | connectionReset
  | adminKick
  | serverStop
  deriving DecidableEq

/-- One iteration of the read loop of ChatServer.handle_client.
Returns the server state, the connection as seen by the loop, the log
of broadcast calls made, and whether the loop breaks. -/
def session_step (writeOk : String → Bool) (now : Nat) (timeStr fullTimeStr : List Char)
    (cid : String) (s : ChatServer) (conn : ClientConnection) :
    SessionEvent → ChatServer × ClientConnection × List (List Char × List Char) × Bool
  | .recvData data =>
    if data = [] then (s, conn, [], true)
    else
      let message := pyStrip data
      if message = [] then (s, conn, [], false)
      else if message.head? = some '/' then
        let h := handle_command (writeOk cid) now timeStr fullTimeStr s.clients conn message
        let conn2 := { h.1 with last_activity := now }
        (setConn s cid conn2, conn2, [], false)
      else
        let b := broadcast_message writeOk now timeStr s conn.nickname message cid
        let conn2 := { conn with last_activity := now }
        (setConn b.1 cid conn2, conn2, [(conn.nickname, message)], false)
  | .recvTimeout => (s, conn, [], false)
  | .connectionReset => (s, conn, [], true)
  | .adminKick =>
    let k := kick_user writeOk now timeStr s conn.nickname
    let conn1 := match k.1.clients.find? (fun p => p.1 == cid) with
      | some p => p.2
      | none => conn
    (k.1, conn1, k.2, false)
  | .serverStop =>
    let st := shutdown_server writeOk now timeStr s
    (st.1, { conn with is_active := false }, st.2, false)

/-- The read loop of ChatServer.handle_client: while the connection is
active and the server running, process one event per iteration; stop
on a break. -/
def session_loop (writeOk : String → Bool) (now : Nat) (timeStr fullTimeStr : List Char)
    (cid : String) :
    ChatServer → ClientConnection → List SessionEvent →
      ChatServer × ClientConnection × List (List Char × List Char)
  | s, conn, [] => (s, conn, [])
  | s, conn, ev :: rest =>
    if conn.is_active && s.is_running then
      let st := session_step writeOk now timeStr fullTimeStr cid s conn ev
      if st.2.2.2 then (st.1, st.2.1, st.2.2.1)
      else
        let r := session_loop writeOk now timeStr fullTimeStr cid st.1 st.2.1 rest
        (r.1, r.2.1, st.2.2.1 ++ r.2.2)
    else (s, conn, [])

/-- Embeds ChatServer.handle_client end to end: broadcast the join
notice excluding the new connection, send it the roster privately, run
the read loop over the events, and in the finally block remove the
connection from the registry, close it and broadcast the departure
notice.  Returns the server state and the full log of broadcast calls
made on behalf of this session. -/
def handle_client_run (writeOk : String → Bool) (now : Nat) (timeStr fullTimeStr : List Char)
    (s : ChatServer) (conn : ClientConnection) (events : List SessionEvent) :
    ChatServer × List (List Char × List Char) :=
  let cid := clientIdOf conn.ip conn.port
  let b1 := broadcast_message writeOk now timeStr s sysLabel (welcomeText conn.nickname) cid
  let sent := conn.send_message (writeOk cid) now
  let s2 := setConn b1.1 cid sent.1
  let r := session_loop writeOk now timeStr fullTimeStr cid s2 sent.1 events
  let s4 := { r.1 with clients := remove_client r.1.clients cid }
  let b2 := broadcast_message writeOk now timeStr s4 sysLabel (leaveText conn.nickname) ""
  (b2.1, (sysLabel, welcomeText conn.nickname) :: r.2.2 ++ [(sysLabel, leaveText conn.nickname)])

/-- Embeds client.ChatClient state that the claims touch. -/
structure ChatClient where
  is_connected : Bool
  is_running : Bool
  current_input_buffer : List Char
  deriving DecidableEq

/-- Embeds client.ChatClient.send_message: refuse when disconnected;
refuse a body longer than the maximum without writing anything; on a
write failure mark the session disconnected.  Returns the client, the
reported result, and the bytes placed on the wire. -/
def ChatClient.send_message (cl : ChatClient) (sendOk : Bool) (message : List Char) :
    ChatClient × Bool × List (List Char) :=
  if !cl.is_connected then (cl, false, [])
  else if MAX_MESSAGE_SIZE < message.length then (cl, false, [])
  else if sendOk then (cl, true, [message])
  else ({ cl with is_connected := false }, false, [])

/-- Outcome of one iteration of the client input loop. -/
inductive LoopSignal
  | continueLoop
  | breakLoop
  deriving DecidableEq

/-- One iteration of client.ChatClient.handle_user_input on one typed
line: strip it, intercept the local directives, and otherwise send the
line; a failed send breaks the loop.  Returns the client, the loop
signal, and the bytes placed on the wire. -/
def handle_user_input_step (cl : ChatClient) (sendOk : Bool) (raw : List Char) :
    ChatClient × LoopSignal × List (List Char) :=
  let user_input := pyStrip raw
  if user_input = [] then (cl, .continueLoop, [])
  else if pyLower user_input = "/quit".toList ∨ pyLower user_input = "/exit".toList
      ∨ pyLower user_input = "/q".toList then
    let r := cl.send_message sendOk "/quit".toList
    (r.1, .breakLoop, r.2.2)
  else if pyLower user_input = "/help".toList then (cl, .continueLoop, [])
  else if pyLower user_input = "/clear".toList ∨ pyLower user_input = "/cls".toList then
    (cl, .continueLoop, [])
  else if pyLower user_input = "/time".toList then (cl, .continueLoop, [])
  else
    let r := cl.send_message sendOk user_input
    if r.2.1 then ({ r.1 with current_input_buffer := [] }, .continueLoop, r.2.2)
    else (r.1, .breakLoop, r.2.2)

/-- The while loop of client.ChatClient.handle_user_input over a list
of typed lines. -/
def handle_user_input_loop (sendOk : Bool) :
    ChatClient → List (List Char) → ChatClient × List (List Char)
  | cl, [] => (cl, [])
  | cl, raw :: rest =>
    if cl.is_running && cl.is_connected then
      let st := handle_user_input_step cl sendOk raw
      match st.2.1 with
      | .breakLoop => (st.1, st.2.2)
      | .continueLoop =>
        let r := handle_user_input_loop sendOk st.1 rest
        (r.1, st.2.2 ++ r.2)
    else (cl, [])

/-- Embeds client.ChatClient.disconnect. -/
def ChatClient.disconnect (cl : ChatClient) : ChatClient :=
  { cl with is_running := false, is_connected := false }

/-- The tail of client.ChatClient.run: the input loop followed by the
unconditional disconnect in the finally block. -/
def client_session_run (sendOk : Bool) (cl : ChatClient) (inputs : List (List Char)) :
    ChatClient × List (List Char) :=
  let r := handle_user_input_loop sendOk cl inputs
  (r.1.disconnect, r.2)

/-! Theorems.  Each claim of the specification gets one theorem below,
preceded by shared helper lemmas. -/

/-- Sample connections used by witnesses. -/
def sampleConnA : ClientConnection :=
  { ip := "10.0.0.1", port := 4000, nickname := "Alice".toList,
    connected_time := 0, last_activity := 0, is_active := true }

def sampleConnB : ClientConnection :=
  { ip := "10.0.0.2", port := 4001, nickname := "Bob".toList,
    connected_time := 0, last_activity := 0, is_active := true }

/-- C9: remove_client is idempotent; removing an absent id leaves the
registry unchanged, and removing the same id twice has the same effect
as removing it once. -/
theorem C9_remove_idempotent (clients : Registry) (client_id : String) :
    ((∀ p ∈ clients, p.1 ≠ client_id) → remove_client clients client_id = clients) ∧
    remove_client (remove_client clients client_id) client_id
      = remove_client clients client_id := by
  constructor
  · intro h
    exact List.filter_eq_self.mpr (fun p hp => by simpa using h p hp)
  · simp [remove_client, List.filter_filter]

theorem C9_remove_idempotent_witness :
    ((∀ p ∈ [("10.0.0.1:4000", sampleConnA)], p.1 ≠ "10.0.0.9:9") →
      remove_client [("10.0.0.1:4000", sampleConnA)] "10.0.0.9:9"
        = [("10.0.0.1:4000", sampleConnA)]) ∧
    remove_client (remove_client [("10.0.0.1:4000", sampleConnA)] "10.0.0.9:9") "10.0.0.9:9"
      = remove_client [("10.0.0.1:4000", sampleConnA)] "10.0.0.9:9" :=
  C9_remove_idempotent [("10.0.0.1:4000", sampleConnA)] "10.0.0.9:9"

/-- C1 counterexample: the credential string room1 followed by a space
differs from the secret room1, yet the server strips the received
credential before comparing, answers with the success marker and
admits the connection to the registry. -/
theorem C1_counterexample :
    "room1 ".toList ≠ "room1".toList ∧
    (accept_one { clients := [], room_password := "room1".toList, is_running := true }
        "192.168.1.7" 5555 ("room1 ".toList) ("Alice".toList) 0).2
      = [.passwordRequest, .authSuccess, .nicknameRequest] ∧
    ((accept_one { clients := [], room_password := "room1".toList, is_running := true }
        "192.168.1.7" 5555 ("room1 ".toList) ("Alice".toList) 0).1.clients.map Prod.fst)
      = [clientIdOf "192.168.1.7" 5555] := by decide

/-- C1 amended: with capacity available and a fresh identity, a client
whose stripped credential equals the room secret is admitted to the
registry exactly once after the success marker; a client whose stripped
credential differs receives the failure marker, the socket is closed,
and the registry is unchanged, never containing that identity. -/
theorem C1_auth_amended (s : ChatServer) (ip : String) (port : Nat)
    (rawPassword rawNickname : List Char) (now : Nat)
    (hcap : s.clients.length < MAX_CLIENTS)
    (hfresh : ∀ p ∈ s.clients, p.1 ≠ clientIdOf ip port) :
    (pyStrip rawPassword = s.room_password →
      (accept_one s ip port rawPassword rawNickname now).2
          = [.passwordRequest, .authSuccess, .nicknameRequest] ∧
      ((accept_one s ip port rawPassword rawNickname now).1.clients.map Prod.fst).count
          (clientIdOf ip port) = 1) ∧
    (pyStrip rawPassword ≠ s.room_password →
      (accept_one s ip port rawPassword rawNickname now).2
          = [.passwordRequest, .authFailed, .socketClosed] ∧
      (accept_one s ip port rawPassword rawNickname now).1 = s ∧
      ∀ p ∈ (accept_one s ip port rawPassword rawNickname now).1.clients,
        p.1 ≠ clientIdOf ip port) := by
  have hcap' : ¬ MAX_CLIENTS ≤ s.clients.length := Nat.not_le.mpr hcap
  have hany : (s.clients.any fun p => p.1 == clientIdOf ip port) = false :=
    List.any_eq_false.mpr (fun p hp => by simpa using hfresh p hp)
  constructor
  · intro hpw
    simp only [accept_one, authenticate_client, if_neg hcap', if_pos hpw]
    refine ⟨rfl, ?_⟩
    simp only [dict_insert, hany, Bool.false_eq_true, if_false, List.map_append,
      List.count_append]
    have h0 : (s.clients.map Prod.fst).count (clientIdOf ip port) = 0 := by
      refine List.count_eq_zero.mpr ?_
      intro hmem
      obtain ⟨p, hp, hpe⟩ := List.mem_map.mp hmem
      exact hfresh p hp hpe
    simp [h0]
  · intro hpw
    simp only [accept_one, authenticate_client, if_neg hcap', if_neg hpw]
    exact ⟨rfl, rfl, hfresh⟩

theorem C1_auth_amended_witness :
    (pyStrip "room1".toList
        = ({ clients := [], room_password := "room1".toList, is_running := true } :
            ChatServer).room_password →
      (accept_one { clients := [], room_password := "room1".toList, is_running := true }
          "10.0.0.1" 4000 "room1".toList "Alice".toList 0).2
        = [.passwordRequest, .authSuccess, .nicknameRequest] ∧
      ((accept_one { clients := [], room_password := "room1".toList, is_running := true }
          "10.0.0.1" 4000 "room1".toList "Alice".toList 0).1.clients.map Prod.fst).count
          (clientIdOf "10.0.0.1" 4000) = 1) ∧
    (pyStrip "room1".toList
        ≠ ({ clients := [], room_password := "room1".toList, is_running := true } :
            ChatServer).room_password →
      (accept_one { clients := [], room_password := "room1".toList, is_running := true }
          "10.0.0.1" 4000 "room1".toList "Alice".toList 0).2
        = [.passwordRequest, .authFailed, .socketClosed] ∧
      (accept_one { clients := [], room_password := "room1".toList, is_running := true }
          "10.0.0.1" 4000 "room1".toList "Alice".toList 0).1
        = { clients := [], room_password := "room1".toList, is_running := true } ∧
      ∀ p ∈ (accept_one { clients := [], room_password := "room1".toList, is_running := true }
          "10.0.0.1" 4000 "room1".toList "Alice".toList 0).1.clients,
        p.1 ≠ clientIdOf "10.0.0.1" 4000) :=
  C1_auth_amended { clients := [], room_password := "room1".toList, is_running := true }
    "10.0.0.1" 4000 "room1".toList "Alice".toList 0 (by decide) (by decide)

theorem broadcast_pass_length (writeOk : String → Bool) (now : Nat) (fm : List Char)
    (ex : String) : ∀ l : Registry, (broadcast_pass writeOk now fm ex l).1.length = l.length := by
  intro l
  induction l with
  | nil => simp [broadcast_pass]
  | cons hd tl ih =>
    obtain ⟨cid, c⟩ := hd
    simp only [broadcast_pass]
    split_ifs <;> simp_all

theorem remove_client_length_le (l : Registry) (cid : String) :
    (remove_client l cid).length ≤ l.length :=
  List.length_filter_le _ l

theorem foldl_remove_length_le (rs : List String) :
    ∀ init : Registry,
      (rs.foldl (fun cs cid => remove_client cs cid) init).length ≤ init.length := by
  induction rs with
  | nil => intro init; simp
  | cons r rest ih =>
    intro init
    simpa using le_trans (ih (remove_client init r)) (remove_client_length_le init r)

theorem broadcast_clients_length_le (writeOk : String → Bool) (now : Nat)
    (timeStr : List Char) (s : ChatServer) (sender message : List Char) (ex : String) :
    (broadcast_message writeOk now timeStr s sender message ex).1.clients.length
      ≤ s.clients.length := by
  by_cases h : s.clients.isEmpty
  · simp [broadcast_message, h]
  · simp only [broadcast_message, h, Bool.false_eq_true, if_false]
    exact le_trans (foldl_remove_length_le _ _)
      (le_of_eq (broadcast_pass_length writeOk now _ ex s.clients))

theorem dict_insert_length_le (l : Registry) (k : String) (v : ClientConnection) :
    (dict_insert l k v).length ≤ l.length + 1 := by
  by_cases h : l.any (fun p => p.1 == k)
  · simp [dict_insert, h]
  · simp [dict_insert, h]

theorem setConn_length (s : ChatServer) (cid : String) (c : ClientConnection) :
    (setConn s cid c).clients.length = s.clients.length := by
  simp [setConn]

/-- C4: the registry never grows beyond the capacity of five: every
server operation preserves the bound, and an acceptance attempt at
capacity is answered with the server-full marker and a close, with no
password request and no registry change. -/
theorem C4_capacity (writeOk : String → Bool) (now : Nat) (timeStr : List Char)
    (s : ChatServer) (ip : String) (port : Nat) (rawPassword rawNickname : List Char)
    (sender message : List Char) (exclude_client : String) (username : List Char)
    (client_id : String)
    (hcap : s.clients.length ≤ MAX_CLIENTS) :
    ((accept_one s ip port rawPassword rawNickname now).1.clients.length ≤ MAX_CLIENTS) ∧
    (MAX_CLIENTS ≤ s.clients.length →
      (accept_one s ip port rawPassword rawNickname now).2 = [.serverFull, .socketClosed] ∧
      WireMsg.passwordRequest ∉ (accept_one s ip port rawPassword rawNickname now).2 ∧
      (accept_one s ip port rawPassword rawNickname now).1 = s) ∧
    ((broadcast_message writeOk now timeStr s sender message exclude_client).1.clients.length
      ≤ MAX_CLIENTS) ∧
    ((kick_user writeOk now timeStr s username).1.clients.length ≤ MAX_CLIENTS) ∧
    ((remove_client s.clients client_id).length ≤ MAX_CLIENTS) ∧
    ((shutdown_server writeOk now timeStr s).1.clients.length ≤ MAX_CLIENTS) := by
  refine ⟨?_, ?_, ?_, ?_, ?_, ?_⟩
  · by_cases hfull : MAX_CLIENTS ≤ s.clients.length
    · simp [accept_one, hfull, hcap]
    · have hlt : s.clients.length < MAX_CLIENTS := Nat.not_le.mp hfull
      simp only [accept_one, if_neg hfull]
      by_cases hpw : pyStrip rawPassword = s.room_password
      · simp only [authenticate_client, if_pos hpw]
        exact le_trans (dict_insert_length_le _ _ _) hlt
      · simp only [authenticate_client, if_neg hpw]
        exact hcap
  · intro hfull
    simp [accept_one, if_pos hfull]
  · exact le_trans (broadcast_clients_length_le writeOk now timeStr s sender message
      exclude_client) hcap
  · simp only [kick_user]
    cases hf : s.clients.find? (fun p => p.2.nickname == username && p.2.is_active) with
    | none => simpa using hcap
    | some pc =>
      simp only
      refine le_trans (broadcast_clients_length_le _ _ _ _ _ _ _) ?_
      rw [setConn_length]
      exact hcap
  · exact le_trans (remove_client_length_le s.clients client_id) hcap
  · simp [shutdown_server, MAX_CLIENTS]

theorem C4_capacity_witness :
    (((accept_one { clients := [], room_password := "room1".toList, is_running := true }
        "10.0.0.1" 4000 "room1".toList "Alice".toList 0).1.clients.length ≤ MAX_CLIENTS) ∧
      (MAX_CLIENTS ≤ ({ clients := [], room_password := "room1".toList, is_running := true } :
            ChatServer).clients.length →
        (accept_one { clients := [], room_password := "room1".toList, is_running := true }
            "10.0.0.1" 4000 "room1".toList "Alice".toList 0).2
          = [.serverFull, .socketClosed] ∧
        WireMsg.passwordRequest
          ∉ (accept_one { clients := [], room_password := "room1".toList, is_running := true }
              "10.0.0.1" 4000 "room1".toList "Alice".toList 0).2 ∧
        (accept_one { clients := [], room_password := "room1".toList, is_running := true }
            "10.0.0.1" 4000 "room1".toList "Alice".toList 0).1
          = { clients := [], room_password := "room1".toList, is_running := true }) ∧
      ((broadcast_message (fun _ => true) 0 "12:00:00".toList
          { clients := [], room_password := "room1".toList, is_running := true }
          "Alice".toList "hi".toList "").1.clients.length ≤ MAX_CLIENTS) ∧
      ((kick_user (fun _ => true) 0 "12:00:00".toList
          { clients := [], room_password := "room1".toList, is_running := true }
          "Alice".toList).1.clients.length ≤ MAX_CLIENTS) ∧
      ((remove_client ({ clients := [], room_password := "room1".toList, is_running := true } :
          ChatServer).clients "x").length ≤ MAX_CLIENTS) ∧
      ((shutdown_server (fun _ => true) 0 "12:00:00".toList
          { clients := [], room_password := "room1".toList,
            is_running := true }).1.clients.length ≤ MAX_CLIENTS)) :=
  C4_capacity (fun _ => true) 0 "12:00:00".toList
    { clients := [], room_password := "room1".toList, is_running := true }
    "10.0.0.1" 4000 "room1".toList "Alice".toList "Alice".toList "hi".toList ""
    "Alice".toList "x" (by decide)

theorem dict_insert_mem_key (l : Registry) (k : String) (v : ClientConnection) :
    ∃ p ∈ dict_insert l k v, p.1 = k := by
  by_cases h : l.any (fun p => p.1 == k)
  · obtain ⟨p, hp, hpk⟩ := List.any_eq_true.mp h
    refine ⟨(k, v), ?_, rfl⟩
    simp only [dict_insert, h, if_true]
    exact List.mem_map.mpr ⟨p, hp, by simp [show p.1 = k from by simpa using hpk]⟩
  · refine ⟨(k, v), ?_, rfl⟩
    simp [dict_insert, h]

/-- C5 counterexample: the nickname a_b is nonempty, of length at most
twenty, and made of letters, digits and an underscore, yet the server
rejects it because the underscore is not alphanumeric for Python, and
substitutes a placeholder derived from the clock, not from the port. -/
theorem C5_counterexample :
    ("a_b".toList.length ≤ 20 ∧
      ∀ c ∈ "a_b".toList, (c.isAlpha = true ∨ c.isDigit = true ∨ c = '_')) ∧
    get_client_nickname ("a_b".toList) 1234 = "User_1234".toList ∧
    get_client_nickname ("a_b".toList) 1234 ≠ "a_b".toList := by decide

/-- C5 amended: the handshake accepts exactly the stripped nicknames
that are nonempty, of length at most twenty and alphanumeric, including
native-script word characters but not the underscore; every other
nickname is replaced by the placeholder User_ followed by the epoch
seconds modulo 10000, and the connection is admitted to the registry
whatever nickname was submitted. -/
theorem C5_nickname_amended (rawNickname : List Char) (now : Nat)
    (s : ChatServer) (ip : String) (port : Nat) (rawPassword : List Char)
    (hcap : s.clients.length < MAX_CLIENTS)
    (hauth : pyStrip rawPassword = s.room_password) :
    (pyStrip rawNickname ≠ [] ∧ (pyStrip rawNickname).length ≤ 20 ∧
        (pyStrip rawNickname).all pyIsAlnum = true →
      get_client_nickname rawNickname now = pyStrip rawNickname) ∧
    (¬(pyStrip rawNickname ≠ [] ∧ (pyStrip rawNickname).length ≤ 20 ∧
        (pyStrip rawNickname).all pyIsAlnum = true) →
      get_client_nickname rawNickname now = defaultNickname now) ∧
    (∃ p ∈ (accept_one s ip port rawPassword rawNickname now).1.clients,
      p.1 = clientIdOf ip port) := by
  refine ⟨?_, ?_, ?_⟩
  · intro h
    simp [get_client_nickname, h]
  · intro h
    simp only [get_client_nickname, if_neg h]
  · have hcap' : ¬ MAX_CLIENTS ≤ s.clients.length := Nat.not_le.mpr hcap
    simp only [accept_one, authenticate_client, if_neg hcap', if_pos hauth]
    exact dict_insert_mem_key s.clients (clientIdOf ip port) _

theorem C5_nickname_amended_witness :
    (pyStrip "a_b".toList ≠ [] ∧ (pyStrip "a_b".toList).length ≤ 20 ∧
        (pyStrip "a_b".toList).all pyIsAlnum = true →
      get_client_nickname "a_b".toList 1234 = pyStrip "a_b".toList) ∧
    (¬(pyStrip "a_b".toList ≠ [] ∧ (pyStrip "a_b".toList).length ≤ 20 ∧
        (pyStrip "a_b".toList).all pyIsAlnum = true) →
      get_client_nickname "a_b".toList 1234 = defaultNickname 1234) ∧
    (∃ p ∈ (accept_one { clients := [], room_password := "room1".toList, is_running := true }
        "10.0.0.1" 4000 "room1".toList "a_b".toList 1234).1.clients,
      p.1 = clientIdOf "10.0.0.1" 4000) :=
  C5_nickname_amended "a_b".toList 1234
    { clients := [], room_password := "room1".toList, is_running := true }
    "10.0.0.1" 4000 "room1".toList (by decide) (by decide)

/-- C7 counterexample: the locally typed line /quit is a client-side
directive, yet the client transmits the line /quit to the server
instead of transmitting nothing. -/
theorem C7_counterexample :
    (handle_user_input_step
        { is_connected := true, is_running := true, current_input_buffer := [] }
        true ("/quit".toList)).2.2 = ["/quit".toList] ∧
    (handle_user_input_step
        { is_connected := true, is_running := true, current_input_buffer := [] }
        true ("/quit".toList)).2.2 ≠ [] := by decide

/-- C7 amended: typed lines exactly equal, case-insensitively after
trimming, to /help, /clear, /cls or /time are handled locally with
nothing transmitted; lines equal to /quit, /exit or /q end the loop and
transmit one /quit line when the connection is up and the write
succeeds; every other nonempty trimmed line is sent as typed when it is
within the 500-character maximum, and an over-long line puts nothing on
the wire. -/
theorem C7_directives_amended (cl : ChatClient) (sendOk : Bool) (raw : List Char) :
    (pyLower (pyStrip raw) = "/help".toList ∨ pyLower (pyStrip raw) = "/clear".toList
        ∨ pyLower (pyStrip raw) = "/cls".toList ∨ pyLower (pyStrip raw) = "/time".toList →
      (handle_user_input_step cl sendOk raw).2.2 = [] ∧
      (handle_user_input_step cl sendOk raw).2.1 = .continueLoop) ∧
    (pyLower (pyStrip raw) = "/quit".toList ∨ pyLower (pyStrip raw) = "/exit".toList
        ∨ pyLower (pyStrip raw) = "/q".toList →
      (handle_user_input_step cl sendOk raw).2.1 = .breakLoop ∧
      (cl.is_connected = true → sendOk = true →
        (handle_user_input_step cl sendOk raw).2.2 = ["/quit".toList])) ∧
    (pyStrip raw ≠ [] →
      pyLower (pyStrip raw) ∉ ["/quit".toList, "/exit".toList, "/q".toList, "/help".toList,
        "/clear".toList, "/cls".toList, "/time".toList] →
      cl.is_connected = true → sendOk = true → (pyStrip raw).length ≤ MAX_MESSAGE_SIZE →
      (handle_user_input_step cl sendOk raw).2.2 = [pyStrip raw]) ∧
    (MAX_MESSAGE_SIZE < (pyStrip raw).length →
      (handle_user_input_step cl sendOk raw).2.2 = []) := by
  have hlen : ∀ t : List Char, pyLower (pyStrip raw) = t →
      (pyStrip raw).length = t.length := by
    intro t ht
    have := congrArg List.length ht
    simpa [pyLower] using this
  refine ⟨?_, ?_, ?_, ?_⟩
  · intro h
    have hne : pyStrip raw ≠ [] := by
      intro e
      rcases h with h | h | h | h <;> rw [e] at h <;> simp [pyLower] at h
    rcases h with h | h | h | h <;>
      simp [handle_user_input_step, hne, h]
  · intro h
    have hne : pyStrip raw ≠ [] := by
      intro e
      rcases h with h | h | h <;> rw [e] at h <;> simp [pyLower] at h
    refine ⟨?_, ?_⟩
    · rcases h with h | h | h <;> simp [handle_user_input_step, hne, h]
    · intro hconn hok
      rcases h with h | h | h <;>
        simp [handle_user_input_step, hne, h, ChatClient.send_message, hconn, hok,
          MAX_MESSAGE_SIZE]
  · intro hne hnotdir hconn hok hlen'
    have hmem : ∀ t : List Char, pyLower (pyStrip raw) = t →
        t ∈ ["/quit".toList, "/exit".toList, "/q".toList, "/help".toList,
          "/clear".toList, "/cls".toList, "/time".toList] → False := by
      intro t ht hm
      exact hnotdir (ht.symm ▸ hm)
    have h1 : ¬ pyLower (pyStrip raw) = ['/', 'q', 'u', 'i', 't'] :=
      fun h => hmem _ h (by decide)
    have h2 : ¬ pyLower (pyStrip raw) = ['/', 'e', 'x', 'i', 't'] :=
      fun h => hmem _ h (by decide)
    have h3 : ¬ pyLower (pyStrip raw) = ['/', 'q'] :=
      fun h => hmem _ h (by decide)
    have h4 : ¬ pyLower (pyStrip raw) = ['/', 'h', 'e', 'l', 'p'] :=
      fun h => hmem _ h (by decide)
    have h5 : ¬ pyLower (pyStrip raw) = ['/', 'c', 'l', 'e', 'a', 'r'] :=
      fun h => hmem _ h (by decide)
    have h6 : ¬ pyLower (pyStrip raw) = ['/', 'c', 'l', 's'] :=
      fun h => hmem _ h (by decide)
    have h7 : ¬ pyLower (pyStrip raw) = ['/', 't', 'i', 'm', 'e'] :=
      fun h => hmem _ h (by decide)
    have hnl : ¬ (500 < (pyStrip raw).length) := by
      simpa [MAX_MESSAGE_SIZE] using Nat.not_lt.mpr hlen'
    simp [handle_user_input_step, hne, h1, h2, h3, h4, h5, h6, h7,
      ChatClient.send_message, hconn, hok, MAX_MESSAGE_SIZE, hnl]
  · intro hlong
    have hne : pyStrip raw ≠ [] := by
      intro e
      rw [e] at hlong
      simp [MAX_MESSAGE_SIZE] at hlong
    have hshort : ∀ t : List Char, pyLower (pyStrip raw) = t → t.length < 8 → False := by
      intro t ht hl
      have := hlen t ht
      rw [this] at hlong
      have : MAX_MESSAGE_SIZE < 8 := lt_trans hlong hl
      simp [MAX_MESSAGE_SIZE] at this
    have h1 : ¬ pyLower (pyStrip raw) = ['/', 'q', 'u', 'i', 't'] :=
      fun h => hshort _ h (by decide)
    have h2 : ¬ pyLower (pyStrip raw) = ['/', 'e', 'x', 'i', 't'] :=
      fun h => hshort _ h (by decide)
    have h3 : ¬ pyLower (pyStrip raw) = ['/', 'q'] :=
      fun h => hshort _ h (by decide)
    have h4 : ¬ pyLower (pyStrip raw) = ['/', 'h', 'e', 'l', 'p'] :=
      fun h => hshort _ h (by decide)
    have h5 : ¬ pyLower (pyStrip raw) = ['/', 'c', 'l', 'e', 'a', 'r'] :=
      fun h => hshort _ h (by decide)
    have h6 : ¬ pyLower (pyStrip raw) = ['/', 'c', 'l', 's'] :=
      fun h => hshort _ h (by decide)
    have h7 : ¬ pyLower (pyStrip raw) = ['/', 't', 'i', 'm', 'e'] :=
      fun h => hshort _ h (by decide)
    by_cases hconn : cl.is_connected
    · simp [handle_user_input_step, hne, h1, h2, h3, h4, h5, h6, h7,
        ChatClient.send_message, hconn, hlong]
    · simp [handle_user_input_step, hne, h1, h2, h3, h4, h5, h6, h7,
        ChatClient.send_message, hconn]

theorem C7_directives_amended_witness :
    (pyLower (pyStrip "/help".toList) = "/help".toList
        ∨ pyLower (pyStrip "/help".toList) = "/clear".toList
        ∨ pyLower (pyStrip "/help".toList) = "/cls".toList
        ∨ pyLower (pyStrip "/help".toList) = "/time".toList →
      (handle_user_input_step
          { is_connected := true, is_running := true, current_input_buffer := [] }
          true "/help".toList).2.2 = [] ∧
      (handle_user_input_step
          { is_connected := true, is_running := true, current_input_buffer := [] }
          true "/help".toList).2.1 = .continueLoop) ∧
    (pyLower (pyStrip "/help".toList) = "/quit".toList
        ∨ pyLower (pyStrip "/help".toList) = "/exit".toList
        ∨ pyLower (pyStrip "/help".toList) = "/q".toList →
      (handle_user_input_step
          { is_connected := true, is_running := true, current_input_buffer := [] }
          true "/help".toList).2.1 = .breakLoop ∧
      (({ is_connected := true, is_running := true, current_input_buffer := [] } :
          ChatClient).is_connected = true → true = true →
        (handle_user_input_step
            { is_connected := true, is_running := true, current_input_buffer := [] }
            true "/help".toList).2.2 = ["/quit".toList])) ∧
    (pyStrip "/help".toList ≠ [] →
      pyLower (pyStrip "/help".toList) ∉ ["/quit".toList, "/exit".toList, "/q".toList,
        "/help".toList, "/clear".toList, "/cls".toList, "/time".toList] →
      ({ is_connected := true, is_running := true, current_input_buffer := [] } :
          ChatClient).is_connected = true → true = true →
      (pyStrip "/help".toList).length ≤ MAX_MESSAGE_SIZE →
      (handle_user_input_step
          { is_connected := true, is_running := true, current_input_buffer := [] }
          true "/help".toList).2.2 = [pyStrip "/help".toList]) ∧
    (MAX_MESSAGE_SIZE < (pyStrip "/help".toList).length →
      (handle_user_input_step
          { is_connected := true, is_running := true, current_input_buffer := [] }
          true "/help".toList).2.2 = []) :=
  C7_directives_amended
    { is_connected := true, is_running := true, current_input_buffer := [] }
    true "/help".toList

theorem replicate_a_pyStrip (n : Nat) :
    pyStrip (List.replicate n 'a') = List.replicate n 'a' := by
  have hr : ∀ m : Nat, pyRStrip (List.replicate m 'a') = List.replicate m 'a' := by
    intro m
    induction m with
    | zero => rfl
    | succ k ih =>
      rw [List.replicate_succ, pyRStrip, ih]
      simp [isPySpace]
  rw [pyStrip]
  cases n with
  | zero => rfl
  | succ k =>
    rw [List.replicate_succ, List.dropWhile_cons_of_neg (by decide), ← List.replicate_succ,
      hr]

theorem client_long_message (cl : ChatClient) (raw : List Char)
    (hconn : cl.is_connected = true) (hrun : cl.is_running = true)
    (hlong : MAX_MESSAGE_SIZE < (pyStrip raw).length) :
    (handle_user_input_step cl true raw).2.2 = [] ∧
    (handle_user_input_step cl true raw).1.is_connected = true ∧
    (handle_user_input_step cl true raw).2.1 = LoopSignal.breakLoop ∧
    (client_session_run true cl [raw]).2 = [] ∧
    (client_session_run true cl [raw]).1.is_connected = false := by
  have hne : pyStrip raw ≠ [] := by
    intro e
    rw [e] at hlong
    simp [MAX_MESSAGE_SIZE] at hlong
  have hshort : ∀ t : List Char, pyLower (pyStrip raw) = t → t.length < 8 → False := by
    intro t ht hl
    have hle := congrArg List.length ht
    simp only [pyLower, List.length_map] at hle
    rw [hle] at hlong
    have : MAX_MESSAGE_SIZE < 8 := lt_trans hlong hl
    simp [MAX_MESSAGE_SIZE] at this
  have h1 : ¬ pyLower (pyStrip raw) = ['/', 'q', 'u', 'i', 't'] :=
    fun h => hshort _ h (by decide)
  have h2 : ¬ pyLower (pyStrip raw) = ['/', 'e', 'x', 'i', 't'] :=
    fun h => hshort _ h (by decide)
  have h3 : ¬ pyLower (pyStrip raw) = ['/', 'q'] :=
    fun h => hshort _ h (by decide)
  have h4 : ¬ pyLower (pyStrip raw) = ['/', 'h', 'e', 'l', 'p'] :=
    fun h => hshort _ h (by decide)
  have h5 : ¬ pyLower (pyStrip raw) = ['/', 'c', 'l', 'e', 'a', 'r'] :=
    fun h => hshort _ h (by decide)
  have h6 : ¬ pyLower (pyStrip raw) = ['/', 'c', 'l', 's'] :=
    fun h => hshort _ h (by decide)
  have h7 : ¬ pyLower (pyStrip raw) = ['/', 't', 'i', 'm', 'e'] :=
    fun h => hshort _ h (by decide)
  refine ⟨?_, ?_, ?_, ?_, ?_⟩ <;>
    simp [client_session_run, handle_user_input_loop, handle_user_input_step,
      ChatClient.send_message, ChatClient.disconnect, hne, h1, h2, h3, h4, h5, h6, h7,
      hconn, hrun, hlong]

/-- C6: behaviour of the client at an over-long chat body.  The
501-character line is rejected locally and nothing is placed on the
wire, and the length rejection alone does not flip the connected flag;
but the input loop treats the failed send as a disconnect and breaks,
after which the run method disconnects the client, so the session does
not continue as the claim states. -/
theorem C6_long_message_eval :
    (handle_user_input_step
        { is_connected := true, is_running := true, current_input_buffer := [] }
        true (List.replicate 501 'a')).2.2 = [] ∧
    (handle_user_input_step
        { is_connected := true, is_running := true, current_input_buffer := [] }
        true (List.replicate 501 'a')).1.is_connected = true ∧
    (handle_user_input_step
        { is_connected := true, is_running := true, current_input_buffer := [] }
        true (List.replicate 501 'a')).2.1 = LoopSignal.breakLoop ∧
    (client_session_run true
        { is_connected := true, is_running := true, current_input_buffer := [] }
        [List.replicate 501 'a']).2 = [] ∧
    (client_session_run true
        { is_connected := true, is_running := true, current_input_buffer := [] }
        [List.replicate 501 'a']).1.is_connected = false :=
  client_long_message
    { is_connected := true, is_running := true, current_input_buffer := [] }
    (List.replicate 501 'a') rfl rfl
    (by rw [replicate_a_pyStrip, List.length_replicate]; decide)

/-- C8: the command interpreter always sends exactly one reply to the
issuer; every slash line other than the four recognized directives gets
the unknown-command notice; and when the reply write succeeds the
active flag of the issuer is untouched except by the quit directive.
The interpreter is a total function, so no input can raise out of it. -/
theorem C8_unknown_command (writeOk : Bool) (now : Nat) (timeStr fullTimeStr : List Char)
    (clients : Registry) (conn : ClientConnection) (command : List Char)
    (hslash : command.head? = some '/') :
    (handle_command writeOk now timeStr fullTimeStr clients conn command).2.length = 1 ∧
    (command ≠ "/quit".toList → command ≠ "/help".toList → command ≠ "/users".toList →
      command ≠ "/time".toList →
      (handle_command writeOk now timeStr fullTimeStr clients conn command).2
        = [format_message timeStr sysLabel (unknownText command)]) ∧
    (writeOk = true → command ≠ "/quit".toList →
      (handle_command writeOk now timeStr fullTimeStr clients conn command).1.is_active
        = conn.is_active) := by
  refine ⟨?_, ?_, ?_⟩
  · simp only [handle_command]
    split_ifs <;> simp
  · intro h1 h2 h3 h4
    simp only [handle_command, if_neg h1, if_neg h2, if_neg h3, if_neg h4]
  · intro hok h1
    simp only [handle_command, if_neg h1]
    split_ifs <;> simp [ClientConnection.send_message, hok]

theorem C8_unknown_command_witness :
    (handle_command true 0 "12:00:00".toList "2026-01-01 12:00:00".toList
        [("10.0.0.1:4000", sampleConnA)] sampleConnA "/foo".toList).2.length = 1 ∧
    ("/foo".toList ≠ "/quit".toList → "/foo".toList ≠ "/help".toList →
      "/foo".toList ≠ "/users".toList → "/foo".toList ≠ "/time".toList →
      (handle_command true 0 "12:00:00".toList "2026-01-01 12:00:00".toList
          [("10.0.0.1:4000", sampleConnA)] sampleConnA "/foo".toList).2
        = [format_message "12:00:00".toList sysLabel (unknownText "/foo".toList)]) ∧
    (true = true → "/foo".toList ≠ "/quit".toList →
      (handle_command true 0 "12:00:00".toList "2026-01-01 12:00:00".toList
          [("10.0.0.1:4000", sampleConnA)] sampleConnA "/foo".toList).1.is_active
        = sampleConnA.is_active) :=
  C8_unknown_command true 0 "12:00:00".toList "2026-01-01 12:00:00".toList
    [("10.0.0.1:4000", sampleConnA)] sampleConnA "/foo".toList (by decide)

theorem broadcast_pass_deliveries_eq (writeOk : String → Bool) (now : Nat) (fm : List Char)
    (ex : String) :
    ∀ l : Registry, ∀ d ∈ (broadcast_pass writeOk now fm ex l).2.2, d.2 = fm := by
  intro l
  induction l with
  | nil => simp [broadcast_pass]
  | cons hd tl ih =>
    obtain ⟨cid, c⟩ := hd
    intro d hd'
    simp only [broadcast_pass] at hd'
    split_ifs at hd' with hex hact hok
    · exact ih d hd'
    · exact ih d hd'
    · rcases List.mem_cons.mp hd' with h | h
      · rw [h]
      · exact ih d h
    · exact ih d hd'

theorem broadcast_pass_delivers (writeOk : String → Bool) (now : Nat) (fm : List Char)
    (ex : String) :
    ∀ (l : Registry) (cid : String) (c : ClientConnection),
      (cid, c) ∈ l → cid ≠ ex → c.is_active = true → writeOk cid = true →
      (cid, fm) ∈ (broadcast_pass writeOk now fm ex l).2.2 := by
  intro l
  induction l with
  | nil => simp
  | cons hd tl ih =>
    obtain ⟨hcid, hc⟩ := hd
    intro cid c hmem hne hact hok
    rcases List.mem_cons.mp hmem with h | h
    · obtain ⟨e1, e2⟩ := Prod.mk.injEq .. ▸ h
      subst e1
      subst e2
      simp only [broadcast_pass, if_neg hne, hact, Bool.not_true, Bool.false_eq_true,
        if_false, ClientConnection.send_message, hok, if_true]
      exact List.mem_cons_self _ _
    · have hrec := ih cid c h hne hact hok
      simp only [broadcast_pass]
      split_ifs <;> first | exact hrec | exact List.mem_cons_of_mem _ hrec

theorem broadcast_pass_failed_scheduled (writeOk : String → Bool) (now : Nat)
    (fm : List Char) (ex : String) :
    ∀ (l : Registry) (cid : String) (c : ClientConnection),
      (cid, c) ∈ l → cid ≠ ex → c.is_active = true → writeOk cid = false →
      cid ∈ (broadcast_pass writeOk now fm ex l).2.1 := by
  intro l
  induction l with
  | nil => simp
  | cons hd tl ih =>
    obtain ⟨hcid, hc⟩ := hd
    intro cid c hmem hne hact hok
    rcases List.mem_cons.mp hmem with h | h
    · obtain ⟨e1, e2⟩ := Prod.mk.injEq .. ▸ h
      subst e1
      subst e2
      simp only [broadcast_pass, if_neg hne, hact, Bool.not_true, Bool.false_eq_true,
        if_false, ClientConnection.send_message, hok, Bool.true_eq_false]
      exact List.mem_cons_self _ _
    · have hrec := ih cid c h hne hact hok
      simp only [broadcast_pass]
      split_ifs <;> first | exact hrec | exact List.mem_cons_of_mem _ hrec

theorem remove_key_gone (l : Registry) (cid : String) :
    ∀ p ∈ remove_client l cid, p.1 ≠ cid := by
  intro p hp
  have := List.of_mem_filter hp
  simpa using this

theorem remove_keeps_absent (l : Registry) (x cid : String)
    (h : ∀ p ∈ l, p.1 ≠ cid) : ∀ p ∈ remove_client l x, p.1 ≠ cid := by
  intro p hp
  exact h p (List.mem_of_mem_filter hp)

theorem foldl_remove_keeps_absent (cid : String) :
    ∀ (rs : List String) (init : Registry), (∀ p ∈ init, p.1 ≠ cid) →
      ∀ p ∈ rs.foldl (fun cs c => remove_client cs c) init, p.1 ≠ cid := by
  intro rs
  induction rs with
  | nil =>
    intro init h
    simpa using h
  | cons r rest ih =>
    intro init h
    exact ih (remove_client init r) (remove_keeps_absent init r cid h)

theorem foldl_remove_gone (cid : String) :
    ∀ (rs : List String) (init : Registry), cid ∈ rs →
      ∀ p ∈ rs.foldl (fun cs c => remove_client cs c) init, p.1 ≠ cid := by
  intro rs
  induction rs with
  | nil =>
    intro init hin
    simp at hin
  | cons r rest ih =>
    intro init hin
    rcases List.mem_cons.mp hin with h | h
    · subst h
      exact foldl_remove_keeps_absent cid rest (remove_client init cid)
        (remove_key_gone init cid)
    · exact ih (remove_client init r) h

/-- C2: one broadcast call formats the envelope once and delivers those
identical bytes to every registry entry, other than the excluded one,
that is active and whose write succeeds; a failed write on one
recipient does not block any other recipient, since every such entry is
delivered to unconditionally; and every active non-excluded entry whose
write fails is no longer in the registry when the call returns. -/
theorem C2_broadcast (writeOk : String → Bool) (now : Nat) (timeStr : List Char)
    (s : ChatServer) (sender message : List Char) (exclude_client : String) :
    (∀ d ∈ (broadcast_message writeOk now timeStr s sender message exclude_client).2,
      d.2 = format_message timeStr sender message) ∧
    (∀ (cid : String) (c : ClientConnection),
      (cid, c) ∈ s.clients → cid ≠ exclude_client → c.is_active = true →
      writeOk cid = true →
      (cid, format_message timeStr sender message)
        ∈ (broadcast_message writeOk now timeStr s sender message exclude_client).2) ∧
    (∀ (cid : String) (c : ClientConnection),
      (cid, c) ∈ s.clients → cid ≠ exclude_client → c.is_active = true →
      writeOk cid = false →
      ∀ p ∈ (broadcast_message writeOk now timeStr s sender message exclude_client).1.clients,
        p.1 ≠ cid) := by
  by_cases hemp : s.clients.isEmpty
  · have : s.clients = [] := List.isEmpty_iff.mp hemp
    refine ⟨?_, ?_, ?_⟩ <;> simp [broadcast_message, hemp, this]
  · refine ⟨?_, ?_, ?_⟩
    · intro d hd
      simp only [broadcast_message, hemp, Bool.false_eq_true, if_false] at hd
      exact broadcast_pass_deliveries_eq writeOk now _ exclude_client s.clients d hd
    · intro cid c hmem hne hact hok
      simp only [broadcast_message, hemp, Bool.false_eq_true, if_false]
      exact broadcast_pass_delivers writeOk now _ exclude_client s.clients cid c hmem
        hne hact hok
    · intro cid c hmem hne hact hok p hp
      simp only [broadcast_message, hemp, Bool.false_eq_true, if_false] at hp
      have hin := broadcast_pass_failed_scheduled writeOk now
        (format_message timeStr sender message) exclude_client s.clients
        cid c hmem hne hact hok
      exact foldl_remove_gone cid _ _ hin p hp

theorem C2_broadcast_witness :
    ("10.0.0.2:4001", format_message "12:00:00".toList "Alice".toList "hi".toList)
      ∈ (broadcast_message (fun _ => true) 7 "12:00:00".toList
          { clients := [("10.0.0.1:4000", sampleConnA), ("10.0.0.2:4001", sampleConnB)],
            room_password := "room1".toList, is_running := true }
          "Alice".toList "hi".toList "10.0.0.1:4000").2 :=
  (C2_broadcast (fun _ => true) 7 "12:00:00".toList
      { clients := [("10.0.0.1:4000", sampleConnA), ("10.0.0.2:4001", sampleConnB)],
        room_password := "room1".toList, is_running := true }
      "Alice".toList "hi".toList "10.0.0.1:4000").2.1
    "10.0.0.2:4001" sampleConnB (by decide) (by decide) (by decide) rfl

theorem send_message_nickname (c : ClientConnection) (ok : Bool) (now : Nat) :
    (c.send_message ok now).1.nickname = c.nickname := by
  unfold ClientConnection.send_message
  split_ifs <;> rfl

theorem broadcast_pass_entries (writeOk : String → Bool) (now : Nat) (fm : List Char)
    (ex : String) :
    ∀ l : Registry, ∀ p ∈ (broadcast_pass writeOk now fm ex l).1,
      ∃ c, (p.1, c) ∈ l ∧ c.nickname = p.2.nickname := by
  intro l
  induction l with
  | nil => simp [broadcast_pass]
  | cons hd tl ih =>
    obtain ⟨hcid, hc⟩ := hd
    intro p hp
    simp only [broadcast_pass] at hp
    split_ifs at hp <;> rcases List.mem_cons.mp hp with h | h
    · subst h
      exact ⟨hc, List.mem_cons_self _ _, rfl⟩
    · obtain ⟨c, hm, he⟩ := ih p h
      exact ⟨c, List.mem_cons_of_mem _ hm, he⟩
    · subst h
      exact ⟨hc, List.mem_cons_self _ _, rfl⟩
    · obtain ⟨c, hm, he⟩ := ih p h
      exact ⟨c, List.mem_cons_of_mem _ hm, he⟩
    · subst h
      exact ⟨hc, List.mem_cons_self _ _, (send_message_nickname hc (writeOk hcid) now).symm⟩
    · obtain ⟨c, hm, he⟩ := ih p h
      exact ⟨c, List.mem_cons_of_mem _ hm, he⟩
    · subst h
      exact ⟨hc, List.mem_cons_self _ _, (send_message_nickname hc (writeOk hcid) now).symm⟩
    · obtain ⟨c, hm, he⟩ := ih p h
      exact ⟨c, List.mem_cons_of_mem _ hm, he⟩

theorem foldl_remove_subset :
    ∀ (rs : List String) (init : Registry),
      ∀ p ∈ rs.foldl (fun cs c => remove_client cs c) init, p ∈ init := by
  intro rs
  induction rs with
  | nil =>
    intro init p hp
    simpa using hp
  | cons r rest ih =>
    intro init p hp
    exact List.mem_of_mem_filter (ih (remove_client init r) p hp)

theorem broadcast_entries (writeOk : String → Bool) (now : Nat) (timeStr : List Char)
    (s : ChatServer) (sender message : List Char) (ex : String) :
    ∀ p ∈ (broadcast_message writeOk now timeStr s sender message ex).1.clients,
      ∃ c, (p.1, c) ∈ s.clients ∧ c.nickname = p.2.nickname := by
  intro p hp
  by_cases hemp : s.clients.isEmpty
  · simp only [broadcast_message, hemp, if_true] at hp
    exact ⟨p.2, hp, rfl⟩
  · simp only [broadcast_message, hemp, Bool.false_eq_true, if_false] at hp
    exact broadcast_pass_entries writeOk now _ ex s.clients p
      (foldl_remove_subset _ _ p hp)

theorem broadcast_keeps_absent (writeOk : String → Bool) (now : Nat) (timeStr : List Char)
    (s : ChatServer) (sender message : List Char) (ex : String) (cid : String)
    (h : ∀ p ∈ s.clients, p.1 ≠ cid) :
    ∀ p ∈ (broadcast_message writeOk now timeStr s sender message ex).1.clients,
      p.1 ≠ cid := by
  intro p hp
  obtain ⟨c, hm, _⟩ := broadcast_entries writeOk now timeStr s sender message ex p hp
  exact h (p.1, c) hm

theorem setConn_entries (s : ChatServer) (cid : String) (c : ClientConnection) :
    ∀ p ∈ (setConn s cid c).clients, p ∈ s.clients ∨ p = (cid, c) := by
  intro p hp
  simp only [setConn] at hp
  obtain ⟨q, hq, he⟩ := List.mem_map.mp hp
  by_cases h : q.1 = cid
  · right
    rw [← he, if_pos h]
  · left
    rw [← he, if_neg h]
    exact hq

theorem handle_command_nickname (writeOk : Bool) (now : Nat) (timeStr fullTimeStr : List Char)
    (clients : Registry) (conn : ClientConnection) (command : List Char) :
    (handle_command writeOk now timeStr fullTimeStr clients conn command).1.nickname
      = conn.nickname := by
  unfold handle_command
  split_ifs <;> simp [send_message_nickname]

theorem kick_entries (writeOk : String → Bool) (now : Nat) (timeStr : List Char)
    (s : ChatServer) (username : List Char) :
    ∀ p ∈ (kick_user writeOk now timeStr s username).1.clients,
      ∃ c, (p.1, c) ∈ s.clients ∧ c.nickname = p.2.nickname := by
  intro p hp
  unfold kick_user at hp
  cases hf : s.clients.find? (fun q => q.2.nickname == username && q.2.is_active) with
  | none =>
    rw [hf] at hp
    exact ⟨p.2, hp, rfl⟩
  | some pc =>
    rw [hf] at hp
    simp only at hp
    obtain ⟨c1, hm1, he1⟩ := broadcast_entries writeOk now timeStr _ sysLabel
      (kickText username) pc.1 p hp
    rcases setConn_entries s pc.1 _ (p.1, c1) hm1 with h | h
    · exact ⟨c1, h, he1⟩
    · have hpc : pc ∈ s.clients := List.mem_of_find?_eq_some hf
      have he2 : c1.nickname = pc.2.nickname := by
        have : c1 = { (pc.2.send_message (writeOk pc.1) now).1 with is_active := false } := by
          have := congrArg Prod.snd h
          simpa using this
        rw [this]
        simpa using send_message_nickname pc.2 (writeOk pc.1) now
      have hp1 : p.1 = pc.1 := by
        have := congrArg Prod.fst h
        simpa using this
      refine ⟨pc.2, ?_, by rw [← he1, he2]⟩
      rw [hp1]
      exact hpc

theorem kickText_ne_leaveText (N : List Char) : kickText N ≠ leaveText N := by
  intro he
  have hlen := congrArg List.length he
  simp only [kickText, leaveText, List.length_append,
    show (" 被管理员踢出聊天室".toList).length = 10 from by decide,
    show ("👋 ".toList).length = 2 from by decide,
    show (" 离开了聊天室".toList).length = 7 from by decide] at hlen
  omega

theorem welcomeText_ne_leaveText (N : List Char) : welcomeText N ≠ leaveText N := by
  intro he
  have h1 : (welcomeText N).head? = some '🎉' := rfl
  have h2 : (leaveText N).head? = some '👋' := rfl
  have hc : some '🎉' = some '👋' := by rw [← h1, he, h2]
  exact absurd (Option.some_inj.mp hc) (by decide)

theorem shutdownText_ne_leaveText (N : List Char) : shutdownText ≠ leaveText N := by
  intro he
  have h1 : shutdownText.head? = some '🛑' := rfl
  have h2 : (leaveText N).head? = some '👋' := rfl
  have hc : some '🛑' = some '👋' := by rw [← h1, he, h2]
  exact absurd (Option.some_inj.mp hc) (by decide)

theorem session_step_props (writeOk : String → Bool) (now : Nat)
    (timeStr fullTimeStr : List Char) (cid : String) (N : List Char)
    (hsys : N ≠ sysLabel)
    (s : ChatServer) (conn : ClientConnection) (ev : SessionEvent)
    (hn : conn.nickname = N)
    (hinv : ∀ p ∈ s.clients, p.1 = cid → p.2.nickname = N) :
    (∀ e ∈ (session_step writeOk now timeStr fullTimeStr cid s conn ev).2.2.1,
      e ≠ (sysLabel, leaveText N)) ∧
    (session_step writeOk now timeStr fullTimeStr cid s conn ev).2.1.nickname = N ∧
    (∀ p ∈ (session_step writeOk now timeStr fullTimeStr cid s conn ev).1.clients,
      p.1 = cid → p.2.nickname = N) := by
  cases ev with
  | recvData data =>
    by_cases hd : data = []
    · simp only [session_step, if_pos hd]
      exact ⟨by simp, hn, hinv⟩
    · by_cases hm : pyStrip data = []
      · simp only [session_step, if_neg hd, if_pos hm]
        exact ⟨by simp, hn, hinv⟩
      · by_cases hsl : (pyStrip data).head? = some '/'
        · simp only [session_step, if_neg hd, if_neg hm, if_pos hsl]
          refine ⟨by simp, ?_, ?_⟩
          · simpa using (handle_command_nickname (writeOk cid) now timeStr fullTimeStr
              s.clients conn (pyStrip data)).trans hn
          · intro p hp hpcid
            rcases setConn_entries _ cid _ p hp with h | h
            · exact hinv p h hpcid
            · rw [h]
              simpa using (handle_command_nickname (writeOk cid) now timeStr fullTimeStr
                s.clients conn (pyStrip data)).trans hn
        · simp only [session_step, if_neg hd, if_neg hm, if_neg hsl]
          refine ⟨?_, by simpa using hn, ?_⟩
          · intro e he
            simp only [List.mem_singleton] at he
            subst he
            intro hcontra
            have := congrArg Prod.fst hcontra
            simp only at this
            exact hsys (hn ▸ this)
          · intro p hp hpcid
            rcases setConn_entries _ cid _ p hp with h | h
            · obtain ⟨c, hm1, he1⟩ := broadcast_entries writeOk now timeStr s
                conn.nickname (pyStrip data) cid p h
              rw [← he1]
              exact hinv (p.1, c) hm1 hpcid
            · rw [h]
              simpa using hn
  | recvTimeout =>
    simp only [session_step]
    exact ⟨by simp, hn, hinv⟩
  | connectionReset =>
    simp only [session_step]
    exact ⟨by simp, hn, hinv⟩
  | adminKick =>
    have hkinv : ∀ p ∈ (kick_user writeOk now timeStr s conn.nickname).1.clients,
        p.1 = cid → p.2.nickname = N := by
      intro p hp hpcid
      obtain ⟨c, hm1, he1⟩ := kick_entries writeOk now timeStr s conn.nickname p hp
      rw [← he1]
      exact hinv (p.1, c) hm1 hpcid
    simp only [session_step]
    refine ⟨?_, ?_, hkinv⟩
    · intro e he
      unfold kick_user at he
      cases hf : s.clients.find?
          (fun q => q.2.nickname == conn.nickname && q.2.is_active) with
      | none =>
        rw [hf] at he
        simp at he
      | some pc =>
        rw [hf] at he
        simp only [List.mem_singleton] at he
        subst he
        intro hcontra
        have := congrArg Prod.snd hcontra
        simp only at this
        exact kickText_ne_leaveText N (hn ▸ this)
    · cases hf : (kick_user writeOk now timeStr s conn.nickname).1.clients.find?
          (fun p => p.1 == cid) with
      | none => simp [hf, hn]
      | some p =>
        simp only [hf]
        have hmem := List.mem_of_find?_eq_some hf
        have hpk := List.find?_some hf
        have hpcid : p.1 = cid := by simpa using hpk
        exact hkinv p hmem hpcid
  | serverStop =>
    simp only [session_step, shutdown_server]
    refine ⟨?_, by simpa using hn, by simp⟩
    intro e he
    simp only [List.mem_singleton] at he
    subst he
    intro hcontra
    have := congrArg Prod.snd hcontra
    simp only at this
    exact shutdownText_ne_leaveText N this

theorem session_loop_props (writeOk : String → Bool) (now : Nat)
    (timeStr fullTimeStr : List Char) (cid : String) (N : List Char)
    (hsys : N ≠ sysLabel) :
    ∀ (events : List SessionEvent) (s : ChatServer) (conn : ClientConnection),
      conn.nickname = N →
      (∀ p ∈ s.clients, p.1 = cid → p.2.nickname = N) →
      ∀ e ∈ (session_loop writeOk now timeStr fullTimeStr cid s conn events).2.2,
        e ≠ (sysLabel, leaveText N) := by
  intro events
  induction events with
  | nil =>
    intro s conn hn hinv e he
    simp [session_loop] at he
  | cons ev rest ih =>
    intro s conn hn hinv e he
    simp only [session_loop] at he
    by_cases hrun : conn.is_active && s.is_running
    · rw [if_pos hrun] at he
      obtain ⟨hstep_log, hstep_nick, hstep_inv⟩ := session_step_props writeOk now timeStr
        fullTimeStr cid N hsys s conn ev hn hinv
      by_cases hbrk : (session_step writeOk now timeStr fullTimeStr cid s conn ev).2.2.2
      · rw [if_pos hbrk] at he
        exact hstep_log e he
      · rw [if_neg hbrk] at he
        rcases List.mem_append.mp he with h | h
        · exact hstep_log e h
        · exact ih _ _ hstep_nick hstep_inv e h
    · rw [if_neg hrun] at he
      simp at he

/-- C3: whatever trace of events a session observes, the end-to-end
session handler leaves a registry that no longer contains the identity
of the connection, makes exactly one departure-notice broadcast call
for it, and a repeated removal of the identity afterwards is a no-op.
The hypotheses say the display name is not the reserved system label,
and that any registry entry stored under this identity carries this
display name. -/
theorem C3_teardown (writeOk : String → Bool) (now : Nat) (timeStr fullTimeStr : List Char)
    (s : ChatServer) (conn : ClientConnection) (events : List SessionEvent)
    (hsys : conn.nickname ≠ sysLabel)
    (hreg : ∀ p ∈ s.clients, p.1 = clientIdOf conn.ip conn.port →
      p.2.nickname = conn.nickname) :
    (∀ p ∈ (handle_client_run writeOk now timeStr fullTimeStr s conn events).1.clients,
      p.1 ≠ clientIdOf conn.ip conn.port) ∧
    (handle_client_run writeOk now timeStr fullTimeStr s conn events).2.count
      (sysLabel, leaveText conn.nickname) = 1 ∧
    remove_client
        (handle_client_run writeOk now timeStr fullTimeStr s conn events).1.clients
        (clientIdOf conn.ip conn.port)
      = (handle_client_run writeOk now timeStr fullTimeStr s conn events).1.clients := by
  have habs : ∀ p ∈ (handle_client_run writeOk now timeStr fullTimeStr s conn
      events).1.clients, p.1 ≠ clientIdOf conn.ip conn.port := by
    simp only [handle_client_run]
    intro p hp
    exact broadcast_keeps_absent writeOk now timeStr _ sysLabel (leaveText conn.nickname)
      "" (clientIdOf conn.ip conn.port) (remove_key_gone _ _) p hp
  refine ⟨habs, ?_, List.filter_eq_self.mpr (fun p hp => by simpa using habs p hp)⟩
  simp only [handle_client_run]
  have hnick : (conn.send_message (writeOk (clientIdOf conn.ip conn.port)) now).1.nickname
      = conn.nickname := send_message_nickname conn _ now
  have hinv2 : ∀ p ∈ (setConn (broadcast_message writeOk now timeStr s sysLabel
        (welcomeText conn.nickname) (clientIdOf conn.ip conn.port)).1
        (clientIdOf conn.ip conn.port)
        (conn.send_message (writeOk (clientIdOf conn.ip conn.port)) now).1).clients,
      p.1 = clientIdOf conn.ip conn.port → p.2.nickname = conn.nickname := by
    intro p hp hpcid
    rcases setConn_entries _ _ _ p hp with h | h
    · obtain ⟨c, hm1, he1⟩ := broadcast_entries writeOk now timeStr s sysLabel
        (welcomeText conn.nickname) (clientIdOf conn.ip conn.port) p h
      rw [← he1]
      exact hreg (p.1, c) hm1 hpcid
    · rw [h]
      simpa using hnick
  have hlog := session_loop_props writeOk now timeStr fullTimeStr
    (clientIdOf conn.ip conn.port) conn.nickname hsys events _ _ hnick hinv2
  have hzero := List.count_eq_zero.mpr
    (fun hmem => hlog (sysLabel, leaveText conn.nickname) hmem rfl)
  have hwel : ¬ (((sysLabel, welcomeText conn.nickname) : List Char × List Char)
      = (sysLabel, leaveText conn.nickname)) := by
    intro h
    exact welcomeText_ne_leaveText conn.nickname (congrArg Prod.snd h)
  simp [List.count_cons, List.count_append, hzero, hwel]

theorem C3_teardown_witness :
    (∀ p ∈ (handle_client_run (fun _ => true) 0 "12:00:00".toList
        "2026-01-01 12:00:00".toList
        { clients := [(clientIdOf "10.0.0.1" 4000, sampleConnA)],
          room_password := "room1".toList, is_running := true }
        sampleConnA [SessionEvent.recvData "/quit".toList]).1.clients,
      p.1 ≠ clientIdOf sampleConnA.ip sampleConnA.port) ∧
    (handle_client_run (fun _ => true) 0 "12:00:00".toList
        "2026-01-01 12:00:00".toList
        { clients := [(clientIdOf "10.0.0.1" 4000, sampleConnA)],
          room_password := "room1".toList, is_running := true }
        sampleConnA [SessionEvent.recvData "/quit".toList]).2.count
      (sysLabel, leaveText sampleConnA.nickname) = 1 ∧
    remove_client
        (handle_client_run (fun _ => true) 0 "12:00:00".toList
          "2026-01-01 12:00:00".toList
          { clients := [(clientIdOf "10.0.0.1" 4000, sampleConnA)],
            room_password := "room1".toList, is_running := true }
          sampleConnA [SessionEvent.recvData "/quit".toList]).1.clients
        (clientIdOf sampleConnA.ip sampleConnA.port)
      = (handle_client_run (fun _ => true) 0 "12:00:00".toList
          "2026-01-01 12:00:00".toList
          { clients := [(clientIdOf "10.0.0.1" 4000, sampleConnA)],
            room_password := "room1".toList, is_running := true }
          sampleConnA [SessionEvent.recvData "/quit".toList]).1.clients :=
  C3_teardown (fun _ => true) 0 "12:00:00".toList "2026-01-01 12:00:00".toList
    { clients := [(clientIdOf "10.0.0.1" 4000, sampleConnA)],
      room_password := "room1".toList, is_running := true }
    sampleConnA [SessionEvent.recvData "/quit".toList]
    (by decide) (by decide)

/-- Normal-form predicate for whitespace after the collapsing
substitution: every whitespace character is a plain space and no
whitespace character is followed by another one. -/
def spaceNormal : List Char → Bool
  | [] => true
  | [c] => !isPySpace c || (c == ' ')
  | c :: d :: rest =>
    (!isPySpace c || (c == ' ' && !isPySpace d)) && spaceNormal (d :: rest)

set_option maxHeartbeats 1000000 in
theorem collapseSpaces_cons (c : Char) (l : List Char) :
    collapseSpaces (c :: l)
      = if isPySpace c then ' ' :: collapseSpaces (l.dropWhile isPySpace)
        else c :: collapseSpaces l := by
  rw [collapseSpaces]

set_option maxHeartbeats 1000000 in
theorem collapseSpaces_nil : collapseSpaces [] = [] := by rw [collapseSpaces]

theorem collapse_cons_ne_nil (c : Char) (l : List Char) :
    collapseSpaces (c :: l) ≠ [] := by
  rw [collapseSpaces_cons]
  split_ifs <;> exact List.cons_ne_nil _ _

theorem dropWhile_head_false {p : Char → Bool} :
    ∀ l : List Char, ∀ c, (l.dropWhile p).head? = some c → p c = false := by
  intro l
  induction l with
  | nil => simp
  | cons a as ih =>
    intro c hc
    by_cases hp : p a
    · rw [List.dropWhile_cons_of_pos hp] at hc
      exact ih c hc
    · rw [List.dropWhile_cons_of_neg (by simpa using hp)] at hc
      simp only [List.head?_cons, Option.some_inj] at hc
      subst hc
      simpa using hp

theorem headOk_collapse (l : List Char)
    (h : ∀ c, l.head? = some c → isPySpace c = false) :
    ∀ c, (collapseSpaces l).head? = some c → isPySpace c = false := by
  cases l with
  | nil => simp [collapseSpaces]
  | cons a as =>
    intro c hc
    have ha := h a rfl
    rw [collapseSpaces_cons, if_neg (by simp [ha])] at hc
    simp only [List.head?_cons, Option.some_inj] at hc
    subst hc
    exact ha

theorem spaceNormal_cons_nonspace (c : Char) (t : List Char) (h : isPySpace c = false) :
    spaceNormal (c :: t) = spaceNormal t := by
  cases t with
  | nil => simp [spaceNormal, h]
  | cons d rest => simp [spaceNormal, h]

theorem spaceNormal_collapse : ∀ l : List Char, spaceNormal (collapseSpaces l) = true := by
  have main : ∀ (n : Nat) (l : List Char), l.length ≤ n →
      spaceNormal (collapseSpaces l) = true := by
    intro n
    induction n with
    | zero =>
      intro l hl
      have : l = [] := List.eq_nil_of_length_eq_zero (Nat.le_zero.mp hl)
      rw [this, collapseSpaces_nil]
      rfl
    | succ k ih =>
      intro l hl
      cases l with
      | nil =>
        rw [collapseSpaces_nil]
        rfl
      | cons c rest =>
        have hrest : rest.length ≤ k := by
          simpa using Nat.lt_succ_iff.mp (Nat.lt_of_lt_of_le (Nat.lt_succ_self _) hl)
        by_cases hc : isPySpace c
        · rw [collapseSpaces_cons, if_pos hc]
          cases hD : collapseSpaces (rest.dropWhile isPySpace) with
          | nil => decide
          | cons d ds =>
            have hd : isPySpace d = false := by
              refine headOk_collapse (rest.dropWhile isPySpace)
                (fun c' hc' => dropWhile_head_false rest c' hc') d ?_
              rw [hD]
              rfl
            have hsn : spaceNormal (collapseSpaces (rest.dropWhile isPySpace)) = true :=
              ih (rest.dropWhile isPySpace)
                (le_trans (dropWhile_length_le isPySpace rest) hrest)
            rw [hD] at hsn
            simp [spaceNormal, hd, hsn]
        · rw [collapseSpaces_cons, if_neg hc]
          have hc' : isPySpace c = false := by simpa using hc
          rw [spaceNormal_cons_nonspace c _ hc']
          exact ih rest hrest
  intro l
  exact main l.length l le_rfl

theorem collapse_of_spaceNormal : ∀ l : List Char,
    spaceNormal l = true → collapseSpaces l = l := by
  intro l
  induction l with
  | nil => simp [collapseSpaces]
  | cons c rest ih =>
    intro h
    by_cases hc : isPySpace c
    · cases rest with
      | nil =>
        have hce : c = ' ' := by
          simp only [spaceNormal, hc, Bool.not_true, Bool.false_or, beq_iff_eq] at h
          exact h
        subst hce
        rw [collapseSpaces_cons, if_pos hc]
        simp [collapseSpaces_nil]
      | cons d ds =>
        simp only [spaceNormal, hc, Bool.not_true, Bool.false_or, Bool.and_eq_true,
          beq_iff_eq, Bool.not_eq_true'] at h
        obtain ⟨⟨hce, hd⟩, hrest⟩ := h
        rw [collapseSpaces_cons, if_pos hc, List.dropWhile_cons_of_neg (by simp [hd]),
          ih (by simpa [spaceNormal, hd] using hrest), hce]
    · have hc' : isPySpace c = false := by simpa using hc
      rw [collapseSpaces_cons, if_neg hc,
        ih (by rw [← spaceNormal_cons_nonspace c rest hc']; exact h)]

theorem spaceNormal_append_left : ∀ (l₁ l₂ : List Char),
    spaceNormal (l₁ ++ l₂) = true → spaceNormal l₁ = true
  | [], _, _ => rfl
  | [c], l₂, h => by
    cases l₂ with
    | nil => simpa using h
    | cons d ds =>
      simp only [List.cons_append, List.nil_append, spaceNormal, Bool.and_eq_true] at h
      rcases Bool.or_eq_true_iff.mp h.1 with h1 | h1
      · simp [spaceNormal, h1]
      · simp [spaceNormal, (Bool.and_eq_true _ _).mp h1 |>.1]
  | c :: d :: rest, l₂, h => by
    simp only [List.cons_append, spaceNormal, Bool.and_eq_true] at h ⊢
    exact ⟨h.1, spaceNormal_append_left (d :: rest) l₂ (by simpa using h.2)⟩

theorem pyRStrip_prefix : ∀ l : List Char, ∃ t, pyRStrip l ++ t = l
  | [] => ⟨[], rfl⟩
  | c :: rest => by
    obtain ⟨t, ht⟩ := pyRStrip_prefix rest
    rw [pyRStrip]
    split_ifs with h
    · exact ⟨c :: rest, rfl⟩
    · exact ⟨t, by rw [List.cons_append, ht]⟩

theorem pyRStrip_length_le (l : List Char) : (pyRStrip l).length ≤ l.length := by
  obtain ⟨t, ht⟩ := pyRStrip_prefix l
  calc (pyRStrip l).length ≤ (pyRStrip l).length + t.length := Nat.le_add_right _ _
    _ = l.length := by rw [← List.length_append, ht]

theorem mem_pyRStrip (c : Char) (l : List Char) (h : c ∈ pyRStrip l) : c ∈ l := by
  obtain ⟨t, ht⟩ := pyRStrip_prefix l
  rw [← ht]
  exact List.mem_append_left t h

theorem spaceNormal_take (n : Nat) (l : List Char) (h : spaceNormal l = true) :
    spaceNormal (l.take n) = true :=
  spaceNormal_append_left (l.take n) (l.drop n) (by rw [List.take_append_drop]; exact h)

theorem spaceNormal_pyRStrip (l : List Char) (h : spaceNormal l = true) :
    spaceNormal (pyRStrip l) = true := by
  obtain ⟨t, ht⟩ := pyRStrip_prefix l
  exact spaceNormal_append_left (pyRStrip l) t (by rw [ht]; exact h)

theorem spaceNormal_mem : ∀ l : List Char, spaceNormal l = true →
    ∀ c ∈ l, isPySpace c = true → c = ' '
  | [], _, c, hc, _ => by simp at hc
  | [a], h, c, hc, hs => by
    rw [List.mem_singleton] at hc
    subst hc
    simp only [spaceNormal, hs, Bool.not_true, Bool.false_or, beq_iff_eq] at h
    exact h
  | a :: b :: rest, h, c, hc, hs => by
    simp only [spaceNormal, Bool.and_eq_true] at h
    rcases List.mem_cons.mp hc with h1 | h1
    · subst h1
      rcases Bool.or_eq_true_iff.mp h.1 with h2 | h2
      · rw [hs] at h2
        simp at h2
      · exact beq_iff_eq.mp ((Bool.and_eq_true _ _).mp h2).1
    · exact spaceNormal_mem (b :: rest) h.2 c h1 hs

theorem dropWhile_eq_self_of_headOk (l : List Char)
    (h : ∀ c, l.head? = some c → isPySpace c = false) :
    l.dropWhile isPySpace = l := by
  cases l with
  | nil => rfl
  | cons a as => exact List.dropWhile_cons_of_neg (by simp [h a rfl])

theorem getLast?_cons_ne_nil (a : Char) (l : List Char) (h : l ≠ []) :
    (a :: l).getLast? = l.getLast? := by
  cases l with
  | nil => exact absurd rfl h
  | cons b bs => exact List.getLast?_cons_cons

theorem pyRStrip_eq_self_of_lastOk : ∀ l : List Char,
    (∀ c, l.getLast? = some c → isPySpace c = false) → pyRStrip l = l
  | [], _ => rfl
  | c :: rest, h => by
    cases hrest : rest with
    | nil =>
      subst hrest
      have hc : isPySpace c = false := h c rfl
      rw [pyRStrip]
      simp [pyRStrip, hc]
    | cons d ds =>
      subst hrest
      have hr : pyRStrip (d :: ds) = d :: ds := by
        refine pyRStrip_eq_self_of_lastOk (d :: ds) (fun c' hc' => h c' ?_)
        rw [getLast?_cons_ne_nil c (d :: ds) (List.cons_ne_nil _ _)]
        exact hc'
      rw [pyRStrip]
      simp [hr]

theorem lastOk_pyRStrip : ∀ l : List Char,
    ∀ c, (pyRStrip l).getLast? = some c → isPySpace c = false := by
  intro l
  induction l with
  | nil => simp [pyRStrip]
  | cons a rest ih =>
    intro c hc
    rw [pyRStrip] at hc
    split_ifs at hc with h
    · simp at hc
    · cases hr : pyRStrip rest with
      | nil =>
        rw [hr] at hc
        simp only [List.getLast?_singleton, Option.some_inj] at hc
        subst hc
        rw [hr] at h
        simpa using h
      | cons r rs =>
        rw [hr, List.getLast?_cons_cons] at hc
        rw [← hr] at hc
        exact ih c hc

theorem mem_of_getLast?_some (l : List Char) (a : Char) (h : l.getLast? = some a) :
    a ∈ l := by
  have hmem : a ∈ l.getLast? := by simp [h]
  obtain ⟨hne, he⟩ := List.mem_getLast?_eq_getLast hmem
  rw [he]
  exact List.getLast_mem hne

theorem dropWhile_getLast?_eq : ∀ l : List Char, l.dropWhile isPySpace ≠ [] →
    (l.dropWhile isPySpace).getLast? = l.getLast? := by
  intro l
  induction l with
  | nil => simp
  | cons a as ih =>
    intro h
    by_cases ha : isPySpace a
    · rw [List.dropWhile_cons_of_pos ha] at h ⊢
      have has : as ≠ [] := by
        intro he
        rw [he] at h
        simp at h
      rw [ih h, getLast?_cons_ne_nil a as has]
    · rw [List.dropWhile_cons_of_neg (by simpa using ha)]

theorem dropWhile_ne_nil_of_last (l : List Char) (a : Char)
    (hl : l.getLast? = some a) (ha : isPySpace a = false) :
    l.dropWhile isPySpace ≠ [] := by
  intro he
  have := List.dropWhile_eq_nil_iff.mp he a (mem_of_getLast?_some l a hl)
  rw [this] at ha
  simp at ha

theorem lastOk_collapse : ∀ l : List Char,
    (∀ c, l.getLast? = some c → isPySpace c = false) →
    ∀ c, (collapseSpaces l).getLast? = some c → isPySpace c = false := by
  have main : ∀ (n : Nat) (l : List Char), l.length ≤ n →
      (∀ c, l.getLast? = some c → isPySpace c = false) →
      ∀ c, (collapseSpaces l).getLast? = some c → isPySpace c = false := by
    intro n
    induction n with
    | zero =>
      intro l hl
      rw [List.eq_nil_of_length_eq_zero (Nat.le_zero.mp hl), collapseSpaces_nil]
      simp
    | succ k ih =>
      intro l hl hlast c hc
      cases l with
      | nil =>
        rw [collapseSpaces_nil] at hc
        simp at hc
      | cons a rest =>
        have hrest : rest.length ≤ k := by simpa using hl
        by_cases ha : isPySpace a
        · rw [collapseSpaces_cons, if_pos ha] at hc
          cases hre : rest with
          | nil =>
            subst hre
            exact absurd (hlast a rfl) (by simp [ha])
          | cons d ds =>
            subst hre
            have hlast' : ∀ c', (d :: ds).getLast? = some c' → isPySpace c' = false := by
              intro c' hc'
              refine hlast c' ?_
              rw [getLast?_cons_ne_nil a _ (List.cons_ne_nil _ _)]
              exact hc'
            obtain ⟨x, hx⟩ : ∃ x, (d :: ds).getLast? = some x :=
              ⟨_, List.getLast?_eq_getLast_of_ne_nil (List.cons_ne_nil _ _)⟩
            have hdw : (d :: ds).dropWhile isPySpace ≠ [] :=
              dropWhile_ne_nil_of_last _ x hx (hlast' x hx)
            have hD : collapseSpaces ((d :: ds).dropWhile isPySpace) ≠ [] := by
              cases hdd : (d :: ds).dropWhile isPySpace with
              | nil => exact absurd hdd hdw
              | cons y ys => exact collapse_cons_ne_nil y ys
            rw [getLast?_cons_ne_nil ' ' _ hD] at hc
            refine ih ((d :: ds).dropWhile isPySpace)
              (le_trans (dropWhile_length_le _ _) hrest) ?_ c hc
            intro c' hc'
            rw [dropWhile_getLast?_eq _ hdw] at hc'
            exact hlast' c' hc'
        · rw [collapseSpaces_cons, if_neg ha] at hc
          cases hre : rest with
          | nil =>
            subst hre
            rw [collapseSpaces_nil] at hc
            simp only [List.getLast?_singleton, Option.some_inj] at hc
            subst hc
            simpa using ha
          | cons d ds =>
            subst hre
            have hCne : collapseSpaces (d :: ds) ≠ [] := collapse_cons_ne_nil d ds
            rw [getLast?_cons_ne_nil a _ hCne] at hc
            refine ih (d :: ds) hrest ?_ c hc
            intro c' hc'
            refine hlast c' ?_
            rw [getLast?_cons_ne_nil a _ (List.cons_ne_nil _ _)]
            exact hc'
  intro l h c hc
  exact main l.length l le_rfl h c hc

theorem mem_collapse : ∀ l : List Char, ∀ c ∈ collapseSpaces l, c = ' ' ∨ c ∈ l := by
  have main : ∀ (n : Nat) (l : List Char), l.length ≤ n →
      ∀ c ∈ collapseSpaces l, c = ' ' ∨ c ∈ l := by
    intro n
    induction n with
    | zero =>
      intro l hl
      rw [List.eq_nil_of_length_eq_zero (Nat.le_zero.mp hl), collapseSpaces_nil]
      simp
    | succ k ih =>
      intro l hl c hc
      cases l with
      | nil =>
        rw [collapseSpaces_nil] at hc
        simp at hc
      | cons a rest =>
        have hrest : rest.length ≤ k := by simpa using hl
        by_cases ha : isPySpace a
        · rw [collapseSpaces_cons, if_pos ha] at hc
          rcases List.mem_cons.mp hc with h | h
          · exact Or.inl h
          · rcases ih (rest.dropWhile isPySpace)
              (le_trans (dropWhile_length_le _ _) hrest) c h with h1 | h1
            · exact Or.inl h1
            · exact Or.inr (List.mem_cons_of_mem a
                ((List.dropWhile_sublist isPySpace).mem h1))
        · rw [collapseSpaces_cons, if_neg ha] at hc
          rcases List.mem_cons.mp hc with h | h
          · exact Or.inr (h ▸ List.mem_cons_self a rest)
          · rcases ih rest hrest c h with h1 | h1
            · exact Or.inl h1
            · exact Or.inr (List.mem_cons_of_mem a h1)
  intro l
  exact main l.length l le_rfl

theorem headOk_pyRStrip (l : List Char)
    (h : ∀ c, l.head? = some c → isPySpace c = false) :
    ∀ c, (pyRStrip l).head? = some c → isPySpace c = false := by
  cases l with
  | nil => simp [pyRStrip]
  | cons a as =>
    intro c hc
    rw [pyRStrip] at hc
    split_ifs at hc with hcond
    · simp at hc
    · simp only [List.head?_cons, Option.some_inj] at hc
      exact hc ▸ h a rfl

theorem headOk_take (n : Nat) (l : List Char)
    (h : ∀ c, l.head? = some c → isPySpace c = false) :
    ∀ c, (l.take n).head? = some c → isPySpace c = false := by
  cases n with
  | zero => simp
  | succ k =>
    cases l with
    | nil => simp
    | cons a as =>
      intro c hc
      simp only [List.take_succ_cons, List.head?_cons, Option.some_inj] at hc
      exact hc ▸ h a rfl

theorem replNL_of_nonspace (c : Char) (h : isPySpace c = false) : replNL c = c := by
  unfold replNL
  split_ifs with hc
  · exfalso
    rcases Bool.or_eq_true_iff.mp hc with h1 | h1
    · rw [of_decide_eq_true h1] at h
      exact absurd h (by decide)
    · rw [of_decide_eq_true h1] at h
      exact absurd h (by decide)
  · rfl

theorem headOk_map_replNL (l : List Char)
    (h : ∀ c, l.head? = some c → isPySpace c = false) :
    ∀ c, (l.map replNL).head? = some c → isPySpace c = false := by
  intro c hc
  rw [List.head?_map] at hc
  cases hl : l.head? with
  | none =>
    rw [hl] at hc
    simp at hc
  | some a =>
    rw [hl] at hc
    simp only [Option.map_some', Option.some_inj] at hc
    have ha := h a hl
    rw [← hc, replNL_of_nonspace a ha]
    exact ha

theorem lastOk_map_replNL (l : List Char)
    (h : ∀ c, l.getLast? = some c → isPySpace c = false) :
    ∀ c, (l.map replNL).getLast? = some c → isPySpace c = false := by
  intro c hc
  rw [List.getLast?_map] at hc
  cases hl : l.getLast? with
  | none =>
    rw [hl] at hc
    simp at hc
  | some a =>
    rw [hl] at hc
    simp only [Option.map_some', Option.some_inj] at hc
    have ha := h a hl
    rw [← hc, replNL_of_nonspace a ha]
    exact ha

theorem mem_pyStrip (c : Char) (l : List Char) (h : c ∈ pyStrip l) : c ∈ l :=
  (List.dropWhile_sublist isPySpace).mem (mem_pyRStrip c _ h)

theorem ctrl_map_replNL (l : List Char)
    (h : ∀ c ∈ l, isRemovedControl c = false) :
    ∀ c ∈ l.map replNL, isRemovedControl c = false := by
  intro c hc
  obtain ⟨a, ha, he⟩ := List.mem_map.mp hc
  rw [← he]
  unfold replNL
  split_ifs
  · decide
  · exact h a ha

theorem filter_ctrl_eq_self (l : List Char)
    (h : ∀ c ∈ l, isRemovedControl c = false) :
    l.filter (fun c => !isRemovedControl c) = l :=
  List.filter_eq_self.mpr (fun c hc => by simp [h c hc])

/-- The sanitiser at its default newline mode, written as the pipeline
it computes. -/
theorem sanitize_input_false_eq (text : List Char) (n : Nat) :
    sanitize_input text n false
      = (if n != 0 && n < (collapseSpaces (((pyStrip text).map replNL).filter
              (fun c => !isRemovedControl c))).length
         then pyRStrip ((collapseSpaces (((pyStrip text).map replNL).filter
              (fun c => !isRemovedControl c))).take n)
         else collapseSpaces (((pyStrip text).map replNL).filter
              (fun c => !isRemovedControl c))) := rfl

theorem sanitize_props (s : List Char) (n : Nat)
    (hs : ∀ c ∈ s, isRemovedControl c = false) :
    spaceNormal (sanitize_input s n false) = true ∧
    (∀ c, (sanitize_input s n false).head? = some c → isPySpace c = false) ∧
    (∀ c, (sanitize_input s n false).getLast? = some c → isPySpace c = false) ∧
    (∀ c ∈ sanitize_input s n false, isRemovedControl c = false) := by
  have hctrl1 : ∀ c ∈ pyStrip s, isRemovedControl c = false :=
    fun c hc => hs c (mem_pyStrip c s hc)
  have hctrl2 : ∀ c ∈ (pyStrip s).map replNL, isRemovedControl c = false :=
    ctrl_map_replNL _ hctrl1
  have hfil : ((pyStrip s).map replNL).filter (fun c => !isRemovedControl c)
      = (pyStrip s).map replNL := filter_ctrl_eq_self _ hctrl2
  have hhead1 : ∀ c, (pyStrip s).head? = some c → isPySpace c = false :=
    headOk_pyRStrip _ (fun c hc => dropWhile_head_false s c hc)
  have hhead2 : ∀ c, ((pyStrip s).map replNL).head? = some c → isPySpace c = false :=
    headOk_map_replNL _ hhead1
  have hlast2 : ∀ c, ((pyStrip s).map replNL).getLast? = some c → isPySpace c = false :=
    lastOk_map_replNL _ (lastOk_pyRStrip _)
  have h4sn : spaceNormal (collapseSpaces (((pyStrip s).map replNL).filter
      (fun c => !isRemovedControl c))) = true := spaceNormal_collapse _
  have h4head : ∀ c, (collapseSpaces (((pyStrip s).map replNL).filter
      (fun c => !isRemovedControl c))).head? = some c → isPySpace c = false := by
    rw [hfil]
    exact headOk_collapse _ hhead2
  have h4last : ∀ c, (collapseSpaces (((pyStrip s).map replNL).filter
      (fun c => !isRemovedControl c))).getLast? = some c → isPySpace c = false := by
    rw [hfil]
    exact lastOk_collapse _ hlast2
  have h4ctrl : ∀ c ∈ collapseSpaces (((pyStrip s).map replNL).filter
      (fun c => !isRemovedControl c)), isRemovedControl c = false := by
    intro c hc
    rcases mem_collapse _ c hc with h | h
    · rw [h]
      decide
    · have := List.of_mem_filter h
      simpa using this
  rw [sanitize_input_false_eq]
  by_cases hg : (n != 0 && n < (collapseSpaces (((pyStrip s).map replNL).filter
      (fun c => !isRemovedControl c))).length) = true
  · rw [if_pos hg]
    refine ⟨spaceNormal_pyRStrip _ (spaceNormal_take n _ h4sn),
      headOk_pyRStrip _ (headOk_take n _ h4head), lastOk_pyRStrip _, ?_⟩
    intro c hc
    exact h4ctrl c ((List.take_sublist n _).mem (mem_pyRStrip c _ hc))
  · rw [if_neg hg]
    exact ⟨h4sn, h4head, h4last, h4ctrl⟩

theorem map_eq_self_of (f : Char → Char) :
    ∀ l : List Char, (∀ c ∈ l, f c = c) → l.map f = l := by
  intro l
  induction l with
  | nil => intro _; rfl
  | cons a as ih =>
    intro h
    simp only [List.map_cons]
    rw [h a (List.mem_cons_self a as), ih (fun c hc => h c (List.mem_cons_of_mem a hc))]

theorem sanitize_fixed (t : List Char) (n : Nat)
    (hsn : spaceNormal t = true)
    (hhead : ∀ c, t.head? = some c → isPySpace c = false)
    (hlast : ∀ c, t.getLast? = some c → isPySpace c = false)
    (hctrl : ∀ c ∈ t, isRemovedControl c = false)
    (hlen : t.length ≤ n) :
    sanitize_input t n false = t := by
  have hstrip : pyStrip t = t := by
    rw [pyStrip, dropWhile_eq_self_of_headOk t hhead, pyRStrip_eq_self_of_lastOk t hlast]
  have hmap : t.map replNL = t := by
    refine map_eq_self_of replNL t ?_
    intro c hc
    unfold replNL
    split_ifs with h
    · exfalso
      rcases Bool.or_eq_true_iff.mp h with h1 | h1
      · have he := of_decide_eq_true h1
        have hsp := spaceNormal_mem t hsn c hc (by rw [he]; decide)
        rw [he] at hsp
        exact absurd hsp (by decide)
      · have he := of_decide_eq_true h1
        have hsp := spaceNormal_mem t hsn c hc (by rw [he]; decide)
        rw [he] at hsp
        exact absurd hsp (by decide)
    · rfl
  have hfil : t.filter (fun c => !isRemovedControl c) = t := filter_ctrl_eq_self t hctrl
  have hcol : collapseSpaces t = t := collapse_of_spaceNormal t hsn
  have hguard : (n != 0 && n < t.length) = false := by
    have h2 : decide (n < t.length) = false := decide_eq_false (Nat.not_lt.mpr hlen)
    rw [h2, Bool.and_false]
  rw [sanitize_input_false_eq, hstrip, hmap, hfil, hcol, hguard]
  simp

theorem sanitize_length_le (s : List Char) (n : Nat) (hn : 0 < n) :
    (sanitize_input s n false).length ≤ n := by
  rw [sanitize_input_false_eq]
  by_cases hg : (n != 0 && n < (collapseSpaces (((pyStrip s).map replNL).filter
      (fun c => !isRemovedControl c))).length) = true
  · rw [if_pos hg]
    exact le_trans (pyRStrip_length_le _) (List.length_take_le n _)
  · rw [if_neg hg]
    have hne : (n != 0) = true := bne_iff_ne.mpr (Nat.pos_iff_ne_zero.mp hn)
    by_contra hlt
    refine hg ?_
    rw [hne, decide_eq_true (Nat.not_le.mp hlt)]
    rfl

theorem collapse_singleton_a : collapseSpaces ['a'] = ['a'] := by
  rw [collapseSpaces_cons, if_neg (by decide : ¬ (isPySpace 'a' = true)),
    collapseSpaces_nil]

theorem collapse_space_a : collapseSpaces [' ', 'a'] = [' ', 'a'] := by
  rw [collapseSpaces_cons, if_pos (by decide : isPySpace ' ' = true),
    show List.dropWhile isPySpace ['a'] = ['a'] from by decide, collapse_singleton_a]

theorem sanitize_cex_eval1 : sanitize_input ['\x01', ' ', 'a'] 10 false = [' ', 'a'] := by
  rw [sanitize_input_false_eq,
    show pyStrip ['\x01', ' ', 'a'] = ['\x01', ' ', 'a'] from by decide,
    show (['\x01', ' ', 'a'].map replNL) = ['\x01', ' ', 'a'] from by decide,
    show (['\x01', ' ', 'a'].filter (fun c => !isRemovedControl c)) = [' ', 'a']
      from by decide,
    collapse_space_a]
  decide

theorem sanitize_cex_eval2 : sanitize_input [' ', 'a'] 10 false = ['a'] := by
  rw [sanitize_input_false_eq,
    show pyStrip [' ', 'a'] = ['a'] from by decide,
    show (['a'].map replNL) = ['a'] from by decide,
    show (['a'].filter (fun c => !isRemovedControl c)) = ['a'] from by decide,
    collapse_singleton_a]
  decide

/-- C10 counterexample: on the input consisting of the control byte
x01, a space and the letter a, with bound ten, the sanitiser keeps a
leading space because the removed control byte shielded it from the
strip, so a second application strips further and the result differs:
sanitising once gives a space then a, sanitising twice gives only a. -/
theorem C10_counterexample :
    (0 : Nat) < 10 ∧
    sanitize_input (sanitize_input ['\x01', ' ', 'a'] 10 false) 10 false
      ≠ sanitize_input ['\x01', ' ', 'a'] 10 false := by
  refine ⟨by decide, ?_⟩
  rw [sanitize_cex_eval1, sanitize_cex_eval2]
  decide

/-- C10 amended: for every input and every positive bound the result of
sanitize_input never exceeds the bound, and on every input free of the
removed control characters the sanitiser is idempotent; inputs where a
removed control character shields surrounding whitespace from the strip
are the only exceptions to idempotence. -/
theorem C10_sanitize_amended (s : List Char) (n : Nat) (hn : 0 < n) :
    (sanitize_input s n false).length ≤ n ∧
    ((∀ c ∈ s, isRemovedControl c = false) →
      sanitize_input (sanitize_input s n false) n false = sanitize_input s n false) := by
  refine ⟨sanitize_length_le s n hn, ?_⟩
  intro hs
  obtain ⟨p1, p2, p3, p4⟩ := sanitize_props s n hs
  exact sanitize_fixed _ n p1 p2 p3 p4 (sanitize_length_le s n hn)

theorem C10_sanitize_amended_witness :
    (sanitize_input "a  b".toList 10 false).length ≤ 10 ∧
    ((∀ c ∈ "a  b".toList, isRemovedControl c = false) →
      sanitize_input (sanitize_input "a  b".toList 10 false) 10 false
        = sanitize_input "a  b".toList 10 false) :=
  C10_sanitize_amended "a  b".toList 10 (by decide)
